import Mathlib

/-!
Verification of the RPG ledger mutation engine (`app.py`).

The campaign documents are JSON objects manipulated as Python dicts; we embed
them as Lean structures whose fields are `Option`-valued exactly where the code
reads them through `dict.get(...)` with a falsy-default (`x or 0`, `x or ""`,
`x or []`), which collapses "absent", `None` and the falsy value itself to the
default.  JSON numbers are modelled as integers (every claim is about integer
quantities).  The persistent state (campaign files plus the `logs.jsonl`
stream) is explicit: a store keyed by file name and an optional list of log
entries (`none` = the log file does not exist).
-/

namespace RpgLedger

/-- JSON values, as produced by `json.loads`.  Numbers are modelled as
integers; objects are association lists with the first binding of a key
authoritative (decoded JSON objects have unique keys). -/
inductive JVal where
  | null
  | bool (b : Bool)
  | num (n : Int)
  | str (s : String)
  | arr (elems : List JVal)
  | obj (fields : List (String × JVal))

/-- Python `str(x)` on a decoded JSON value.  Only the scalar cases are ever
relied on by a theorem; the rendering of containers (Python would use `repr`
of the corresponding list/dict) is best-effort and no statement depends on
it. -/
def pyStr : JVal → String
  | .null => "None"
  | .bool true => "True"
  | .bool false => "False"
  | .num n => toString n
  | .str s => s
  | .arr _ => "<list>"
  | .obj _ => "<dict>"

/-- Python `int(x)` on a decoded JSON value: identity on integers,
`True`/`False` become `1`/`0`, strings are parsed (`none` models the raised
`ValueError`/`TypeError` on anything unconvertible). -/
def pyInt : JVal → Option Int
  | .num n => some n
  | .bool true => some 1
  | .bool false => some 0
  | .str s => s.toInt?
  | .null => none
  | .arr _ => none
  | .obj _ => none

/-- `fields.lookup k`: first binding of `k` in a decoded JSON object,
mirroring Python `k in d` / `d[k]` / `d.get(k, default)`. -/
def objGet (fields : List (String × JVal)) (k : String) : Option JVal :=
  fields.lookup k

/-- An inventory item `{"id": ..., "name": ..., "qty": ...}`.  `qty` is
optional because the code reads it as `int(it.get("qty") or 0)`. -/
structure Item where
  id : String
  name : String
  qty : Option Int
deriving DecidableEq

/-- A character record.  All numeric/text fields are read by the code through
`get(...) or default`, hence `Option`. -/
structure Character where
  id : String
  name : String
  gold : Option Int
  hp : Option Int
  xp : Option Int
  notes : Option String
  inventory : Option (List Item)
deriving DecidableEq

/-- A quest record as created/updated by `quest_update`.  `notes` holds the
raw JSON value stored by the code (Python `None` = `JVal.null`). -/
structure Quest where
  id : String
  title : String
  status : String
  notes : JVal

/-- A faction record; `rep` is read as `int(f.get("rep") or 0)`. -/
structure Faction where
  id : String
  name : String
  rep : Option Int

/-- The campaign document.  Only the fields the mutation engine touches are
modelled; each is optional because the document is an untyped dict. -/
structure Campaign where
  id : Option String
  name : Option String
  day : Option Int
  location : Option JVal
  notes : Option String
  characters : Option (List Character)
  quests : Option (List Quest)
  factions : Option (List Faction)
  world_flags : Option (List (String × JVal))

/-- One line of `logs.jsonl`.  The union of the fields written by
`_log_event` callers; absent keys are `none`. -/
structure LogEntry where
  ts : Option String
  type : Option String
  op : Option String
  campaign_id : Option String
  char_id : Option String
  amount : Option Int
  text : Option String
  value : Option JVal
  summary : Option String
  details : Option String
  tags : Option (List String)
  done : Option Bool
  comment : Option String
  target : Option String

/-- The persistent state: campaign files keyed by file name, and the log
stream (`none` = `logs.jsonl` does not exist). -/
structure SysState where
  store : List (String × Campaign)
  log : Option (List LogEntry)

/-- `_campaign_path`: the sanitized stem of the campaign file,
`"".join(c for c in campaign_id if c.isalnum() or c in "-_")`.
Python `str.isalnum` also accepts non-ASCII letters and digits, none of which
are path separators or dots, so every theorem below also holds for the real
predicate. -/
def _campaign_key (campaign_id : String) : String :=
  String.mk (campaign_id.data.filter (fun c => c.isAlphanum || c == '-' || c == '_'))

/-- `_campaign_path`: the file name `f"{safe}.json"` under `DATA_DIR`. -/
def _campaign_filename (campaign_id : String) : String :=
  _campaign_key campaign_id ++ ".json"

/-- `_load_campaign` (read path only; `none` models the raised
`FileNotFoundError`). -/
def _load_campaign (st : SysState) (campaign_id : String) : Option Campaign :=
  st.store.lookup (_campaign_filename campaign_id)

/-- Overwrite-or-create of a file in the store (what `_save_campaign` does to
the file system). -/
def storeSet (store : List (String × Campaign)) (key : String) (doc : Campaign) :
    List (String × Campaign) :=
  match store with
  | [] => [(key, doc)]
  | (k, v) :: rest => if k == key then (key, doc) :: rest else (k, v) :: storeSet rest key doc

/-- `_save_campaign`. -/
def _save_campaign (st : SysState) (campaign_id : String) (doc : Campaign) : SysState :=
  { st with store := storeSet st.store (_campaign_filename campaign_id) doc }

/-- `_log_event`: `event.setdefault("ts", now)` then append one line; creates
the file when missing. -/
def _log_event (now : String) (log : Option (List LogEntry)) (event : LogEntry) :
    Option (List LogEntry) :=
  let event := if event.ts.isSome then event else { event with ts := some now }
  some (log.getD [] ++ [event])

/-- `_find_character`: first element of `data.get("characters") or []` whose
`"id"` equals `char_id` (`none` models the raised `KeyError`). -/
def _find_character (data : Campaign) (char_id : String) : Option Character :=
  (data.characters.getD []).find? (fun ch => ch.id == char_id)

/-- `get_campaign` tool (a bare `_load_campaign`). -/
def get_campaign (st : SysState) (campaign_id : String) : Option Campaign :=
  _load_campaign st campaign_id

/-! ### The mutation engine -/

/-- Errors raised by `mutate`, classified per the spec taxonomy:
`FileNotFoundError`/`KeyError` are `notFound`, the `Unknown op` `ValueError`
is `unknownOperation`, validation `ValueError`s are `invalidArgument`, and a
failing `int(...)` conversion (Python `ValueError`/`TypeError` from a
malformed `qty`/`delta`) is `convError`. -/
inductive MutError where
  | notFound (msg : String)
  | unknownOperation (msg : String)
  | invalidArgument (msg : String)
  | convError (msg : String)

/-- The message carried by a `mutate` error. -/
def MutError.message : MutError → String
  | .notFound m => m
  | .unknownOperation m => m
  | .invalidArgument m => m
  | .convError m => m

/-- What an op branch decides: persist a new document, or (for `history_log`)
log only and return the loaded document unchanged. -/
inductive OpOutcome where
  | save (newData : Campaign)
  | historyOnly

/-- Replace the first character whose `id` matches (the Python code mutates,
through aliasing, the dict returned by `_find_character`, i.e. the first
match). -/
def replaceFirstChar (chars : List Character) (cid : String) (ch : Character) :
    List Character :=
  match chars with
  | [] => []
  | c :: rest => if c.id == cid then ch :: rest else c :: replaceFirstChar rest cid ch

/-- Write a (mutated) character back into the document. -/
def setCharacter (data : Campaign) (cid : String) (ch : Character) : Campaign :=
  { data with characters := some (replaceFirstChar (data.characters.getD []) cid ch) }

/-- `if existing and not existing.endswith("\n"): existing += "\n"` followed
by `existing + text`: the shared note-append snippet of `note_append`,
`char_note_add` and `campaign_note_add`. -/
def appendNoteText (existing text : String) : String :=
  let existing :=
    if existing ≠ "" && existing.data.getLast? != some '\n' then existing ++ "\n" else existing
  existing ++ text

/-- Update, in place, the first item whose `id` matches (`inventory_add`'s
`existing` aliasing). -/
def updateFirstItem (inv : List Item) (item_id : String) (f : Item → Item) : List Item :=
  match inv with
  | [] => []
  | it :: rest => if it.id == item_id then f it :: rest else it :: updateFirstItem rest item_id f

/-- The `inventory_remove` loop: every item with the given id has its
quantity decreased; an item whose new quantity is `≤ 0` is dropped. -/
def removeItems (inv : List Item) (item_id : String) (qty : Int) : List Item :=
  match inv with
  | [] => []
  | it :: rest =>
    if it.id == item_id then
      let new_qty := it.qty.getD 0 - qty
      if new_qty > 0 then { it with qty := some new_qty } :: removeItems rest item_id qty
      else removeItems rest item_id qty
    else it :: removeItems rest item_id qty

/-- Python dict assignment `flags[key] = val` on the decoded-JSON object
model: replace the binding in place or append it. -/
def dictSet (m : List (String × JVal)) (k : String) (v : JVal) : List (String × JVal) :=
  match m with
  | [] => [(k, v)]
  | (k', v') :: rest => if k' == k then (k, v) :: rest else (k', v') :: dictSet rest k v

/-- Update, in place, the first quest whose `id` matches. -/
def updateFirstQuest (qs : List Quest) (qid : String) (f : Quest → Quest) : List Quest :=
  match qs with
  | [] => []
  | q :: rest => if q.id == qid then f q :: rest else q :: updateFirstQuest rest qid f

/-- Update, in place, the first faction whose `id` matches. -/
def updateFirstFaction (fs : List Faction) (fid : String) (f : Faction → Faction) :
    List Faction :=
  match fs with
  | [] => []
  | fa :: rest => if fa.id == fid then f fa :: rest else fa :: updateFirstFaction rest fid f

/-- The quest dict created by `quest_update` when the id is absent. -/
def newQuestFrom (fields : List (String × JVal)) (qid : String) : Quest :=
  { id := qid,
    title := pyStr ((objGet fields "title").getD (.str qid)),
    status := pyStr ((objGet fields "status").getD (.str "open")),
    notes := (objGet fields "notes").getD .null }

/-- The faction dict created by `faction_rep_add` when the id is absent. -/
def newFactionFrom (fields : List (String × JVal)) (fid : String) (delta : Int) : Faction :=
  { id := fid,
    name := pyStr ((objGet fields "name").getD (.str fid)),
    rep := some delta }

/-- The `faction_rep_add` in-place update: `name` always overwritten, `rep`
accumulated. -/
def factionFieldUpdate (fields : List (String × JVal)) (fid : String) (delta : Int)
    (f : Faction) : Faction :=
  { f with name := pyStr ((objGet fields "name").getD (.str fid)),
           rep := some (f.rep.getD 0 + delta) }

/-- The `quest_update` in-place field update: `title`/`status` overwrite only
when present and non-null, `notes` overwrites whenever the key is present. -/
def questFieldUpdate (fields : List (String × JVal)) (q : Quest) : Quest :=
  let q :=
    match objGet fields "title" with
    | some JVal.null => q
    | some t => { q with title := pyStr t }
    | none => q
  let q :=
    match objGet fields "status" with
    | some JVal.null => q
    | some s => { q with status := pyStr s }
    | none => q
  match objGet fields "notes" with
  | some v => { q with notes := v }
  | none => q

/-- The `if op == ... / elif ... / else raise` dispatch chain of `mutate`,
branch for branch.  `character` is the already-resolved character (`none`
when no `char_id` was passed), `parsed_value` the result of the JSON-parse
step, `value` the raw parameter (used only by `location_set`). -/
def applyOp (data : Campaign) (character : Option Character) (op : String)
    (amount : Option Int) (text : Option String) (value : Option JVal)
    (parsed_value : Option JVal) : Except MutError OpOutcome :=
  if op == "gold_add" then
    match character with
    | none => .error (.invalidArgument "char_id is required for gold_add")
    | some ch =>
      match amount with
      | none => .error (.invalidArgument "amount is required for this operation")
      | some delta =>
        .ok (.save (setCharacter data ch.id { ch with gold := some (ch.gold.getD 0 + delta) }))
  else if op == "hp_add" then
    match character with
    | none => .error (.invalidArgument "char_id is required for hp_add")
    | some ch =>
      match amount with
      | none => .error (.invalidArgument "amount is required for this operation")
      | some delta =>
        let new_hp := ch.hp.getD 0 + delta
        let new_hp := if new_hp < 0 then 0 else new_hp
        .ok (.save (setCharacter data ch.id { ch with hp := some new_hp }))
  else if op == "xp_add" then
    match character with
    | none => .error (.invalidArgument "char_id is required for xp_add")
    | some ch =>
      match amount with
      | none => .error (.invalidArgument "amount is required for this operation")
      | some delta =>
        .ok (.save (setCharacter data ch.id { ch with xp := some (ch.xp.getD 0 + delta) }))
  else if op == "note_append" then
    if text.getD "" == "" then .error (.invalidArgument "text is required for note_append")
    else
      match character with
      | some ch =>
        .ok (.save (setCharacter data ch.id
          { ch with notes := some (appendNoteText (ch.notes.getD "") (text.getD "")) }))
      | none =>
        .ok (.save { data with notes := some (appendNoteText (data.notes.getD "") (text.getD "")) })
  else if op == "char_note_add" then
    match character with
    | none => .error (.invalidArgument "char_id is required for char_note_add")
    | some ch =>
      if text.getD "" == "" then .error (.invalidArgument "text is required for char_note_add")
      else
        .ok (.save (setCharacter data ch.id
          { ch with notes := some (appendNoteText (ch.notes.getD "") (text.getD "")) }))
  else if op == "campaign_note_add" then
    if text.getD "" == "" then .error (.invalidArgument "text is required for campaign_note_add")
    else
      .ok (.save { data with notes := some (appendNoteText (data.notes.getD "") (text.getD "")) })
  else if op == "day_add" then
    match amount with
    | none => .error (.invalidArgument "amount is required for this operation")
    | some delta => .ok (.save { data with day := some (data.day.getD 0 + delta) })
  else if op == "day_set" then
    match amount with
    | none => .error (.invalidArgument "amount is required for this operation")
    | some new_day => .ok (.save { data with day := some new_day })
  else if op == "location_set" then
    match value with
    | none => .error (.invalidArgument "value is required for location_set")
    | some v => .ok (.save { data with location := some v })
  else if op == "inventory_add" then
    match character with
    | none => .error (.invalidArgument "char_id is required for inventory_add")
    | some ch =>
      match parsed_value with
      | some (.obj fields) =>
        match objGet fields "id" with
        | none => .error (.invalidArgument "inventory_add requires JSON in 'value' with at least 'id'")
        | some idv =>
          let item_id := pyStr idv
          let name := pyStr ((objGet fields "name").getD (.str item_id))
          match pyInt ((objGet fields "qty").getD (.num 1)) with
          | none => .error (.convError "int() failed on qty")
          | some qty =>
            if qty ≤ 0 then .error (.invalidArgument "qty for inventory_add must be > 0")
            else
              let inventory := ch.inventory.getD []
              let newInv :=
                if (inventory.find? (fun it => it.id == item_id)).isSome then
                  updateFirstItem inventory item_id
                    (fun it => { it with qty := some (it.qty.getD 0 + qty) })
                else inventory ++ [{ id := item_id, name := name, qty := some qty }]
              .ok (.save (setCharacter data ch.id { ch with inventory := some newInv }))
      | _ => .error (.invalidArgument "inventory_add requires JSON in 'value' with at least 'id'")
  else if op == "inventory_remove" then
    match character with
    | none => .error (.invalidArgument "char_id is required for inventory_remove")
    | some ch =>
      match parsed_value with
      | some (.obj fields) =>
        match objGet fields "id" with
        | none => .error (.invalidArgument "inventory_remove requires JSON in 'value' with at least 'id'")
        | some idv =>
          let item_id := pyStr idv
          match pyInt ((objGet fields "qty").getD (.num 1)) with
          | none => .error (.convError "int() failed on qty")
          | some qty =>
            if qty ≤ 0 then .error (.invalidArgument "qty for inventory_remove must be > 0")
            else
              let inventory := ch.inventory.getD []
              .ok (.save (setCharacter data ch.id
                { ch with inventory := some (removeItems inventory item_id qty) }))
      | _ => .error (.invalidArgument "inventory_remove requires JSON in 'value' with at least 'id'")
  else if op == "world_flag_set" then
    match parsed_value with
    | some (.obj fields) =>
      match objGet fields "key" with
      | none => .error (.invalidArgument "world_flag_set requires JSON in 'value' with 'key' and 'value'")
      | some keyv =>
        let key := pyStr keyv
        let val := (objGet fields "value").getD .null
        .ok (.save { data with world_flags := some (dictSet (data.world_flags.getD []) key val) })
    | _ => .error (.invalidArgument "world_flag_set requires JSON in 'value' with 'key' and 'value'")
  else if op == "quest_update" then
    match parsed_value with
    | some (.obj fields) =>
      match objGet fields "id" with
      | none => .error (.invalidArgument "quest_update requires JSON in 'value' with at least 'id'")
      | some idv =>
        let qid := pyStr idv
        let quests := data.quests.getD []
        let newQuests :=
          if (quests.find? (fun q => q.id == qid)).isSome then
            updateFirstQuest quests qid (questFieldUpdate fields)
          else quests ++ [newQuestFrom fields qid]
        .ok (.save { data with quests := some newQuests })
    | _ => .error (.invalidArgument "quest_update requires JSON in 'value' with at least 'id'")
  else if op == "faction_rep_add" then
    match parsed_value with
    | some (.obj fields) =>
      match objGet fields "id" with
      | none => .error (.invalidArgument "faction_rep_add requires JSON in 'value' with at least 'id'")
      | some idv =>
        let fid := pyStr idv
        match pyInt ((objGet fields "delta").getD (.num 0)) with
        | none => .error (.convError "int() failed on delta")
        | some delta =>
          let factions := data.factions.getD []
          let newFactions :=
            if (factions.find? (fun f => f.id == fid)).isSome then
              updateFirstFaction factions fid (factionFieldUpdate fields fid delta)
            else factions ++ [newFactionFrom fields fid delta]
          .ok (.save { data with factions := some newFactions })
    | _ => .error (.invalidArgument "faction_rep_add requires JSON in 'value' with at least 'id'")
  else if op == "history_log" then
    .ok .historyOnly
  else
    .error (.unknownOperation ("Unknown op: " ++ op))

/-- The `type == "history"` entry logged by the `history_log` branch (its
`value` field holds the parsed value). -/
def historyLogEntry (campaign_id : String) (char_id : Option String)
    (amount : Option Int) (text : Option String) (parsed_value : Option JVal) : LogEntry :=
  { ts := none, type := some "history", op := none,
    campaign_id := some campaign_id, char_id := char_id, amount := amount,
    text := text, value := parsed_value, summary := none, details := none,
    tags := none, done := none, comment := none, target := none }

/-- The `type == "mutate"` entry logged after a persisted mutation (its
`value` field holds the raw value parameter). -/
def mutateLogEntry (campaign_id op : String) (char_id : Option String)
    (amount : Option Int) (text : Option String) (value : Option JVal) : LogEntry :=
  { ts := none, type := some "mutate", op := some op,
    campaign_id := some campaign_id, char_id := char_id, amount := amount,
    text := text, value := value, summary := none, details := none,
    tags := none, done := none, comment := none, target := none }

/-- The character-resolution step of `mutate`:
`if char_id is not None: character = _find_character(data, char_id)`
(the raised `KeyError` becomes `notFound`). -/
def resolveChar (data : Campaign) (char_id : Option String) :
    Except MutError (Option Character) :=
  match char_id with
  | none => .ok none
  | some cid =>
    match _find_character data cid with
    | none => .error (.notFound ("Character " ++ cid ++ " not found in campaign"))
    | some ch => .ok (some ch)

/-- The value-parsing step of `mutate`: a string-typed `value` is passed to
`json.loads` (modelled by `jsonLoads`; `none` = parse failure) and on failure
kept as the raw string; anything else is passed through. -/
def parseValue (jsonLoads : String → Option JVal) (value : Option JVal) : Option JVal :=
  match value with
  | none => none
  | some (.str s) =>
    match jsonLoads s with
    | some j => some j
    | none => some (.str s)
  | some v => some v

/-- The `mutate` tool: load, resolve character, parse `value`, dispatch,
persist (skipped for `history_log`), log.  `now` is the wall-clock timestamp
`_log_event` would assign.  Returns the Python return value (or the raised
error) paired with the resulting persistent state. -/
def mutate (now : String) (jsonLoads : String → Option JVal) (st : SysState)
    (campaign_id : String) (op : String) (char_id : Option String)
    (amount : Option Int) (text : Option String) (value : Option JVal) :
    Except MutError Campaign × SysState :=
  match _load_campaign st campaign_id with
  | none => (.error (.notFound ("Campaign " ++ campaign_id ++ " not found")), st)
  | some data =>
    match resolveChar data char_id with
    | .error e => (.error e, st)
    | .ok character =>
      let parsed_value : Option JVal := parseValue jsonLoads value
      match applyOp data character op amount text value parsed_value with
      | .error e => (.error e, st)
      | .ok .historyOnly =>
        (.ok data,
         { st with log := _log_event now st.log (historyLogEntry campaign_id char_id amount text parsed_value) })
      | .ok (.save newData) =>
        let st := _save_campaign st campaign_id newData
        (.ok newData,
         { st with log := _log_event now st.log (mutateLogEntry campaign_id op char_id amount text value) })

/-! ### Audit-log tail and amendment -/

/-- The ascending comparison of the log-tail sort:
`entries.sort(key=lambda e: e.get("ts", ""))`. -/
def tsLe (a b : LogEntry) : Prop := a.ts.getD "" ≤ b.ts.getD ""

instance : DecidableRel tsLe := fun a b => by unfold tsLe; infer_instance

instance : IsTotal LogEntry tsLe := ⟨fun a b => le_total (a.ts.getD "") (b.ts.getD "")⟩

instance : IsTrans LogEntry tsLe := ⟨fun _ _ _ hab hbc => le_trans hab hbc⟩

/-- Keep-condition of the `dev_get_logs` loop:
`if event_type and obj.get("type") != event_type: continue`
(a falsy filter — absent or empty — keeps everything). -/
def passesTypeFilter (event_type : Option String) (e : LogEntry) : Bool :=
  match event_type with
  | none => true
  | some t => t == "" || e.type == some t

/-- `dev_get_logs(limit, event_type)`: parse the stream, filter by type, sort
ascending by timestamp (Python's stable `list.sort`, modelled by the stable
`List.insertionSort`), keep the last `limit` entries when `limit > 0`
(`entries[-limit:]`), and return them most-recent-first; `[]` when the log
file does not exist. -/
def dev_get_logs (logFile : Option (List LogEntry)) (limit : Int)
    (event_type : Option String) : List LogEntry :=
  match logFile with
  | none => []
  | some entries =>
    let entries := entries.filter (passesTypeFilter event_type)
    let entries := entries.insertionSort tsLe
    let entries := if 0 < limit then entries.drop (entries.length - limit.toNat) else entries
    entries.reverse

/-- `api_logs(limit)`: the HTTP tail endpoint, the same loop with no type
filter. -/
def api_logs (logFile : Option (List LogEntry)) (limit : Int) : List LogEntry :=
  match logFile with
  | none => []
  | some entries =>
    let entries := entries.insertionSort tsLe
    let entries := if 0 < limit then entries.drop (entries.length - limit.toNat) else entries
    entries.reverse

/-- The JSON body returned by `api_todo_status`. -/
structure TodoStatusResult where
  ok : Bool
  error : Option String
deriving DecidableEq

/-- `api_todo_status`: `status = str(payload.get("status") or "open").lower()`
and `comment = payload.get("comment") or ""`; a falsy `todo_ts` raises
`ValueError`; a missing log file returns `{ok: false, error: ...}` without
raising; otherwise every `type == "todo"` entry with matching `ts` gets its
`done`/`comment` set and the whole stream is rewritten. -/
def api_todo_status (logFile : Option (List LogEntry)) (todo_ts : Option String)
    (status : Option String) (comment : Option String) :
    Except String (TodoStatusResult × Option (List LogEntry)) :=
  let statusStr := (if (status.getD "") == "" then "open" else status.getD "").toLower
  let commentStr := comment.getD ""
  if (todo_ts.getD "") == "" then .error "todo_ts is required"
  else
    match logFile with
    | none => .ok ({ ok := false, error := some "logs file not found" }, none)
    | some entries =>
      let entries := entries.map (fun e =>
        if e.type == some "todo" && e.ts == todo_ts then
          { e with done := some (statusStr == "done"), comment := some commentStr }
        else e)
      .ok ({ ok := true, error := none }, some entries)

/-! ### C9: campaign-id sanitization -/

/-- C9: the storage path used by `_load_campaign`/`_save_campaign` is built
from exactly the characters of `campaign_id` that are alphanumeric, `-` or
`_` (everything else is dropped); consequently the resulting file name
(`safe ++ ".json"`) contains no path separator, the sanitized stem contains
no dot, and the file name is neither `.` nor `..`, so the path cannot escape
the storage directory. -/
theorem claim9_path_sanitization (campaign_id : String) :
    (_campaign_key campaign_id).data =
      campaign_id.data.filter (fun c => c.isAlphanum || c == '-' || c == '_') ∧
    (∀ c ∈ (_campaign_filename campaign_id).data, c ≠ '/' ∧ c ≠ '\\') ∧
    '.' ∉ (_campaign_key campaign_id).data ∧
    _campaign_filename campaign_id ≠ "." ∧ _campaign_filename campaign_id ≠ ".." := by
  refine ⟨rfl, ?_, ?_, ?_, ?_⟩
  · intro c hc
    have hdata : (_campaign_filename campaign_id).data
        = (_campaign_key campaign_id).data ++ ".json".data := by
      simp [_campaign_filename, String.data_append]
    rw [hdata, List.mem_append] at hc
    rcases hc with hc | hc
    · simp only [_campaign_key, List.mem_filter] at hc
      rcases hc with ⟨-, hpred⟩
      constructor
      · rintro rfl; revert hpred; decide
      · rintro rfl; revert hpred; decide
    · fin_cases hc <;> exact ⟨by decide, by decide⟩
  · intro hmem
    simp only [_campaign_key, List.mem_filter] at hmem
    rcases hmem with ⟨-, hpred⟩
    revert hpred; decide
  · intro h
    have := congrArg (fun s => s.data.length) h
    simp [_campaign_filename, String.data_append, _campaign_key] at this
  · intro h
    have := congrArg (fun s => s.data.length) h
    simp [_campaign_filename, String.data_append, _campaign_key] at this

/-- Witness for C9 at a path-traversal attempt. -/
theorem claim9_path_sanitization_witness :
    '/' ∉ (_campaign_filename "../../etc/passwd").data ∧
      _campaign_filename "../../etc/passwd" = "etcpasswd.json" := by
  constructor
  · intro hmem
    exact ((claim9_path_sanitization "../../etc/passwd").2.1 '/' hmem).1 rfl
  · rfl

/-! ### C7: the todo amendment path -/

/-- How `api_todo_status` rewrites an existing log, as a `map`. -/
theorem api_todo_status_some (entries : List LogEntry) (tts : String)
    (status comment : Option String) (hbeq : ((tts : String) == "") = false) :
    api_todo_status (some entries) (some tts) status comment =
      .ok ({ ok := true, error := none }, some (entries.map (fun e =>
        if e.type == some "todo" && e.ts == some tts then
          { e with done := some (((if (status.getD "") == "" then "open"
                                   else status.getD "").toLower) == "done"),
                   comment := some (comment.getD "") }
        else e))) := by
  simp only [api_todo_status, Option.getD_some, hbeq]
  rfl

/-- C7: `api_todo_status`, given a timestamp, a done status and a comment,
updates the `done` and `comment` fields of every log entry whose `type` is
`"todo"` and whose `ts` equals the given timestamp, rewrites the log
preserving every other entry unchanged at its original position (hence in
original order), and when the log file does not exist returns `{ok: false}`
without raising. -/
theorem claim7_amend_todo (logFile : Option (List LogEntry)) (tts : String)
    (status comment : Option String) (hts : tts ≠ "") :
    (api_todo_status none (some tts) status comment =
      .ok ({ ok := false, error := some "logs file not found" }, none)) ∧
    (∀ entries, logFile = some entries →
      ∃ rewritten,
        api_todo_status logFile (some tts) status comment =
          .ok ({ ok := true, error := none }, some rewritten) ∧
        rewritten.length = entries.length ∧
        (∀ (i : Nat) (e : LogEntry), entries[i]? = some e →
          ((e.type = some "todo" ∧ e.ts = some tts) →
            rewritten[i]? = some
              { e with
                done := some (((if (status.getD "") == "" then "open"
                                else status.getD "").toLower) == "done"),
                comment := some (comment.getD "") }) ∧
          (¬(e.type = some "todo" ∧ e.ts = some tts) → rewritten[i]? = some e))) := by
  have hbeq : ((tts : String) == "") = false := beq_eq_false_iff_ne.mpr hts
  constructor
  · simp only [api_todo_status, Option.getD_some, hbeq]
    rfl
  · intro entries hlog
    subst hlog
    refine ⟨_, api_todo_status_some entries tts status comment hbeq, List.length_map _ _, ?_⟩
    intro i e hi
    have hmap : ∀ (f : LogEntry → LogEntry), (entries.map f)[i]? = some (f e) := by
      intro f; rw [List.getElem?_map, hi]; rfl
    constructor
    · rintro ⟨hty, hts2⟩
      rw [hmap]
      have hc : (e.type == some "todo" && e.ts == some tts) = true := by simp [hty, hts2]
      simp only [hc, if_true]
    · intro hnot
      rw [hmap]
      have hc : (e.type == some "todo" && e.ts == some tts) = false := by
        rcases Decidable.not_and_iff_or_not.mp hnot with h | h <;> simp [h]
      simp only [hc, Bool.false_eq_true, if_false]

/-- Witness for C7 on a one-entry log whose single todo entry matches. -/
theorem claim7_amend_todo_witness :
    ∃ rewritten,
      api_todo_status
          (some [{ ts := some "T1", type := some "todo", op := none,
                   campaign_id := none, char_id := none, amount := none,
                   text := none, value := none, summary := some "s",
                   details := none, tags := none, done := some false,
                   comment := some "", target := none }])
          (some "T1") (some "done") (some "fixed") =
        .ok ({ ok := true, error := none }, some rewritten) ∧
      rewritten.length = 1 := by
  obtain ⟨l', h1, h2, -⟩ :=
    (claim7_amend_todo
      (some [{ ts := some "T1", type := some "todo", op := none,
               campaign_id := none, char_id := none, amount := none,
               text := none, value := none, summary := some "s",
               details := none, tags := none, done := some false,
               comment := some "", target := none }])
      "T1" (some "done") (some "fixed") (by decide)).2 _ rfl
  exact ⟨l', h1, h2⟩

/-- A minimal log entry with only a timestamp and a type, used by concrete
witnesses. -/
def sampleEntry (t ty : String) : LogEntry :=
  { ts := some t, type := some ty, op := none, campaign_id := none, char_id := none,
    amount := none, text := none, value := none, summary := none, details := none,
    tags := none, done := none, comment := none, target := none }

/-- C8: for every log state, limit and optional type filter, the tail read
returns exactly the entries passing the type filter (each returned entry
passes and comes from the log; with `limit ≤ 0` the result is a permutation
of all of them), ordered descending (most recent first) by timestamp; with
`0 < limit` the result has `min limit n` entries and, read ascending, is a
suffix of the ascending-sorted filtered entries (i.e. the last `limit` of
them); a missing log file yields `[]`, and `api_logs` is the same read with
no filter. -/
theorem claim8_log_tail (logFile : Option (List LogEntry)) (limit : Int)
    (event_type : Option String) :
    (dev_get_logs none limit event_type = []) ∧
    (∀ entries, logFile = some entries →
      (∀ e ∈ dev_get_logs (some entries) limit event_type,
        passesTypeFilter event_type e = true ∧ e ∈ entries) ∧
      (dev_get_logs (some entries) limit event_type).Pairwise (fun a b => tsLe b a) ∧
      (limit ≤ 0 →
        List.Perm (dev_get_logs (some entries) limit event_type)
          (entries.filter (passesTypeFilter event_type))) ∧
      (0 < limit →
        (dev_get_logs (some entries) limit event_type).length =
          min limit.toNat (entries.filter (passesTypeFilter event_type)).length ∧
        List.IsSuffix (dev_get_logs (some entries) limit event_type).reverse
          ((entries.filter (passesTypeFilter event_type)).insertionSort tsLe))) ∧
    (api_logs logFile limit = dev_get_logs logFile limit none) := by
  refine ⟨rfl, ?_, ?_⟩
  case refine_2 =>
    cases logFile with
    | none => rfl
    | some entries =>
      have hid : entries.filter (passesTypeFilter none) = entries :=
        List.filter_eq_self.mpr (fun a _ => rfl)
      simp [api_logs, dev_get_logs, hid]
  · intro entries hlog
    set fl := entries.filter (passesTypeFilter event_type) with hfl
    set srt := fl.insertionSort tsLe with hsrt
    have hperm : List.Perm srt fl := fl.perm_insertionSort tsLe
    have hsorted : srt.Pairwise tsLe := fl.sorted_insertionSort tsLe
    have htrunc : dev_get_logs (some entries) limit event_type =
        ((if 0 < limit then srt.drop (srt.length - limit.toNat) else srt)).reverse := rfl
    refine ⟨?_, ?_, ?_, ?_⟩
    · intro e he
      rw [htrunc, List.mem_reverse] at he
      have hmem : e ∈ srt := by
        by_cases h : 0 < limit
        · rw [if_pos h] at he; exact (List.drop_subset _ _) he
        · rw [if_neg h] at he; exact he
      have : e ∈ fl := hperm.mem_iff.mp hmem
      rw [hfl, List.mem_filter] at this
      exact ⟨this.2, this.1⟩
    · rw [htrunc, List.pairwise_reverse]
      by_cases h : 0 < limit
      · rw [if_pos h]; exact hsorted.sublist (List.drop_sublist _ _)
      · rw [if_neg h]; exact hsorted
    · intro hle
      rw [htrunc, if_neg (by omega)]
      exact srt.reverse_perm.trans hperm
    · intro hpos
      rw [htrunc, if_pos hpos]
      constructor
      · rw [List.length_reverse, List.length_drop]
        have : srt.length = fl.length := hperm.length_eq
        omega
      · rw [List.reverse_reverse]
        exact List.drop_suffix _ _

/-- Witness for C8: three entries, two of type `"mutate"`, limit 1. -/
theorem claim8_log_tail_witness :
    (dev_get_logs (some [sampleEntry "T3" "todo", sampleEntry "T1" "mutate",
        sampleEntry "T2" "mutate"]) 1 (some "mutate")).length = 1 := by
  have h := ((claim8_log_tail
      (some [sampleEntry "T3" "todo", sampleEntry "T1" "mutate", sampleEntry "T2" "mutate"])
      1 (some "mutate")).2.1 _ rfl).2.2.2 (by decide)
  rw [h.1]
  rfl

/-! ### Structural lemmas about `mutate` -/


/-- The op names handled by the dispatch chain of `mutate`. -/
def registeredOps : List String :=
  ["gold_add", "hp_add", "xp_add", "note_append", "char_note_add", "campaign_note_add",
   "day_add", "day_set", "location_set", "inventory_add", "inventory_remove",
   "world_flag_set", "quest_update", "faction_rep_add", "history_log"]

/-- An op name outside the chain falls through to the final
`raise ValueError(f"Unknown op: ...")`. -/
theorem applyOp_unknown (data : Campaign) (character : Option Character) (op : String)
    (amount : Option Int) (text : Option String) (value parsed_value : Option JVal)
    (hop : op ∉ registeredOps) :
    applyOp data character op amount text value parsed_value =
      .error (.unknownOperation ("Unknown op: " ++ op)) := by
  have hf : ∀ s, s ∈ registeredOps → (op == s) = false := fun s hs =>
    beq_eq_false_iff_ne.mpr (fun h => hop (h ▸ hs))
  simp only [applyOp,
    hf "gold_add" (by decide), hf "hp_add" (by decide), hf "xp_add" (by decide),
    hf "note_append" (by decide), hf "char_note_add" (by decide),
    hf "campaign_note_add" (by decide), hf "day_add" (by decide), hf "day_set" (by decide),
    hf "location_set" (by decide), hf "inventory_add" (by decide),
    hf "inventory_remove" (by decide), hf "world_flag_set" (by decide),
    hf "quest_update" (by decide), hf "faction_rep_add" (by decide),
    hf "history_log" (by decide),
    Bool.false_eq_true, if_false]

/-- `mutate` either raises, leaving the state untouched, or succeeds. -/
theorem mutate_state_eq_or (now : String) (jl : String → Option JVal) (st : SysState)
    (campaign_id op : String) (char_id : Option String) (amount : Option Int)
    (text : Option String) (value : Option JVal) :
    (∃ e, mutate now jl st campaign_id op char_id amount text value = (.error e, st)) ∨
    (∃ doc st2, mutate now jl st campaign_id op char_id amount text value = (.ok doc, st2)) := by
  unfold mutate
  cases hl : _load_campaign st campaign_id with
  | none => exact .inl ⟨_, rfl⟩
  | some data =>
    dsimp only
    cases hr : resolveChar data char_id with
    | error e => exact .inl ⟨_, rfl⟩
    | ok character =>
      dsimp only
      cases ha : applyOp data character op amount text value (parseValue jl value) with
      | error e => exact .inl ⟨_, rfl⟩
      | ok outcome => cases outcome <;> exact .inr ⟨_, _, rfl⟩

/-- A raised error leaves the persistent state untouched. -/
theorem mutate_error_state (now : String) (jl : String → Option JVal) (st : SysState)
    (campaign_id op : String) (char_id : Option String) (amount : Option Int)
    (text : Option String) (value : Option JVal) (e : MutError)
    (h : (mutate now jl st campaign_id op char_id amount text value).1 = .error e) :
    (mutate now jl st campaign_id op char_id amount text value).2 = st := by
  rcases mutate_state_eq_or now jl st campaign_id op char_id amount text value with
    ⟨e', he⟩ | ⟨doc, st2, hok⟩
  · rw [he]
  · rw [hok] at h
    simp at h



theorem mutate_campaign_notFound (now : String) (jl : String → Option JVal) (st : SysState)
    (campaign_id op : String) (char_id : Option String) (amount : Option Int)
    (text : Option String) (value : Option JVal)
    (hl : _load_campaign st campaign_id = none) :
    mutate now jl st campaign_id op char_id amount text value =
      (.error (.notFound ("Campaign " ++ campaign_id ++ " not found")), st) := by
  unfold mutate; rw [hl]

theorem mutate_char_notFound (now : String) (jl : String → Option JVal) (st : SysState)
    (campaign_id op c : String) (amount : Option Int)
    (text : Option String) (value : Option JVal) (data : Campaign)
    (hl : _load_campaign st campaign_id = some data)
    (hc : _find_character data c = none) :
    mutate now jl st campaign_id op (some c) amount text value =
      (.error (.notFound ("Character " ++ c ++ " not found in campaign")), st) := by
  have hr : resolveChar data (some c) =
      .error (.notFound ("Character " ++ c ++ " not found in campaign")) := by
    unfold resolveChar; dsimp only; rw [hc]
  unfold mutate; rw [hl]; dsimp only; rw [hr]

theorem mutate_save (now : String) (jl : String → Option JVal) (st : SysState)
    (campaign_id op : String) (char_id : Option String) (amount : Option Int)
    (text : Option String) (value : Option JVal) (data newData : Campaign)
    (character : Option Character)
    (hl : _load_campaign st campaign_id = some data)
    (hr : resolveChar data char_id = .ok character)
    (ha : applyOp data character op amount text value (parseValue jl value) = .ok (.save newData)) :
    mutate now jl st campaign_id op char_id amount text value =
      (.ok newData,
       { store := storeSet st.store (_campaign_filename campaign_id) newData,
         log := _log_event now st.log (mutateLogEntry campaign_id op char_id amount text value) }) := by
  unfold mutate; rw [hl]; dsimp only; rw [hr]; dsimp only; rw [ha]; rfl

theorem mutate_history (now : String) (jl : String → Option JVal) (st : SysState)
    (campaign_id : String) (char_id : Option String) (amount : Option Int)
    (text : Option String) (value : Option JVal) (data : Campaign)
    (character : Option Character)
    (hl : _load_campaign st campaign_id = some data)
    (hr : resolveChar data char_id = .ok character)
    (ha : applyOp data character "history_log" amount text value (parseValue jl value) =
      .ok .historyOnly) :
    mutate now jl st campaign_id "history_log" char_id amount text value =
      (.ok data,
       { st with log := _log_event now st.log (historyLogEntry campaign_id char_id amount text (parseValue jl value)) }) := by
  unfold mutate; rw [hl]; dsimp only; rw [hr]; dsimp only; rw [ha]

theorem applyOp_hp_add (data : Campaign) (ch : Character) (a : Int)
    (text : Option String) (value parsed_value : Option JVal) :
    applyOp data (some ch) "hp_add" (some a) text value parsed_value =
      .ok (.save (setCharacter data ch.id
        { ch with hp := some (if ch.hp.getD 0 + a < 0 then 0 else ch.hp.getD 0 + a) })) := rfl

theorem applyOp_history (data : Campaign) (character : Option Character)
    (amount : Option Int) (text : Option String) (value parsed_value : Option JVal) :
    applyOp data character "history_log" amount text value parsed_value =
      .ok .historyOnly := rfl



theorem applyOp_note_append_char (data : Campaign) (ch : Character) (t : String)
    (amount : Option Int) (value parsed_value : Option JVal) (ht : t ≠ "") :
    applyOp data (some ch) "note_append" amount (some t) value parsed_value =
      .ok (.save (setCharacter data ch.id
        { ch with notes := some (appendNoteText (ch.notes.getD "") t) })) := by
  have hbeq : (t == "") = false := beq_eq_false_iff_ne.mpr ht
  simp only [applyOp, Option.getD_some, hbeq]
  rfl

theorem applyOp_note_append_campaign (data : Campaign) (t : String)
    (amount : Option Int) (value parsed_value : Option JVal) (ht : t ≠ "") :
    applyOp data none "note_append" amount (some t) value parsed_value =
      .ok (.save { data with notes := some (appendNoteText (data.notes.getD "") t) }) := by
  have hbeq : (t == "") = false := beq_eq_false_iff_ne.mpr ht
  simp only [applyOp, Option.getD_some, hbeq]
  rfl

theorem applyOp_char_note_add (data : Campaign) (ch : Character) (t : String)
    (amount : Option Int) (value parsed_value : Option JVal) (ht : t ≠ "") :
    applyOp data (some ch) "char_note_add" amount (some t) value parsed_value =
      .ok (.save (setCharacter data ch.id
        { ch with notes := some (appendNoteText (ch.notes.getD "") t) })) := by
  have hbeq : (t == "") = false := beq_eq_false_iff_ne.mpr ht
  simp only [applyOp, Option.getD_some, hbeq]
  rfl

theorem applyOp_campaign_note_add (data : Campaign) (character : Option Character)
    (t : String) (amount : Option Int) (value parsed_value : Option JVal) (ht : t ≠ "") :
    applyOp data character "campaign_note_add" amount (some t) value parsed_value =
      .ok (.save { data with notes := some (appendNoteText (data.notes.getD "") t) }) := by
  have hbeq : (t == "") = false := beq_eq_false_iff_ne.mpr ht
  simp only [applyOp, Option.getD_some, hbeq]
  rfl

theorem applyOp_inventory_add (data : Campaign) (ch : Character)
    (amount : Option Int) (text : Option String) (value : Option JVal)
    (fields : List (String × JVal)) (idv : JVal) (q : Int)
    (hid : objGet fields "id" = some idv)
    (hq : pyInt ((objGet fields "qty").getD (.num 1)) = some q)
    (hqpos : 0 < q) :
    applyOp data (some ch) "inventory_add" amount text value (some (.obj fields)) =
      .ok (.save (setCharacter data ch.id { ch with inventory := some (
        if ((ch.inventory.getD []).find? (fun it => it.id == pyStr idv)).isSome then
          updateFirstItem (ch.inventory.getD []) (pyStr idv)
            (fun it => { it with qty := some (it.qty.getD 0 + q) })
        else (ch.inventory.getD []) ++
          [{ id := pyStr idv,
             name := pyStr ((objGet fields "name").getD (.str (pyStr idv))),
             qty := some q }]) })) := by
  simp only [applyOp, hid, hq]
  simp only [if_neg (show ¬ (q ≤ 0) by omega)]
  rfl

theorem applyOp_inventory_remove (data : Campaign) (ch : Character)
    (amount : Option Int) (text : Option String) (value : Option JVal)
    (fields : List (String × JVal)) (idv : JVal) (q : Int)
    (hid : objGet fields "id" = some idv)
    (hq : pyInt ((objGet fields "qty").getD (.num 1)) = some q)
    (hqpos : 0 < q) :
    applyOp data (some ch) "inventory_remove" amount text value (some (.obj fields)) =
      .ok (.save (setCharacter data ch.id
        { ch with inventory := some (removeItems (ch.inventory.getD []) (pyStr idv) q) })) := by
  simp only [applyOp, hid, hq]
  simp only [if_neg (show ¬ (q ≤ 0) by omega)]
  rfl

theorem applyOp_quest_update (data : Campaign) (character : Option Character)
    (amount : Option Int) (text : Option String) (value : Option JVal)
    (fields : List (String × JVal)) (idv : JVal)
    (hid : objGet fields "id" = some idv) :
    applyOp data character "quest_update" amount text value (some (.obj fields)) =
      .ok (.save { data with quests := some (
        if ((data.quests.getD []).find? (fun q => q.id == pyStr idv)).isSome then
          updateFirstQuest (data.quests.getD []) (pyStr idv) (questFieldUpdate fields)
        else (data.quests.getD []) ++ [newQuestFrom fields (pyStr idv)]) }) := by
  simp only [applyOp, hid]
  rfl

theorem applyOp_faction_rep_add (data : Campaign) (character : Option Character)
    (amount : Option Int) (text : Option String) (value : Option JVal)
    (fields : List (String × JVal)) (idv : JVal) (delta : Int)
    (hid : objGet fields "id" = some idv)
    (hd : pyInt ((objGet fields "delta").getD (.num 0)) = some delta) :
    applyOp data character "faction_rep_add" amount text value (some (.obj fields)) =
      .ok (.save { data with factions := some (
        if ((data.factions.getD []).find? (fun f => f.id == pyStr idv)).isSome then
          updateFirstFaction (data.factions.getD []) (pyStr idv)
            (factionFieldUpdate fields (pyStr idv) delta)
        else (data.factions.getD []) ++ [newFactionFrom fields (pyStr idv) delta]) }) := by
  simp only [applyOp, hid, hd]
  rfl



theorem lookup_storeSet_self (store : List (String × Campaign)) (k : String) (doc : Campaign) :
    (storeSet store k doc).lookup k = some doc := by
  induction store with
  | nil => simp [storeSet, List.lookup]
  | cons p rest ih =>
    obtain ⟨k', v⟩ := p
    by_cases h : k' = k
    · subst h
      simp [storeSet, List.lookup]
    · have hb : (k' == k) = false := beq_eq_false_iff_ne.mpr h
      have hb2 : (k == k') = false := beq_eq_false_iff_ne.mpr (Ne.symm h)
      simp [storeSet, hb, List.lookup, hb2, ih]

theorem lookup_storeSet_ne (store : List (String × Campaign)) (k k2 : String) (doc : Campaign)
    (h : k2 ≠ k) :
    (storeSet store k doc).lookup k2 = store.lookup k2 := by
  have hb : (k2 == k) = false := beq_eq_false_iff_ne.mpr h
  induction store with
  | nil => simp [storeSet, List.lookup, hb]
  | cons p rest ih =>
    obtain ⟨k', v⟩ := p
    by_cases hk : k' = k
    · subst hk
      simp [storeSet, List.lookup, hb]
    · have hbk : (k' == k) = false := beq_eq_false_iff_ne.mpr hk
      by_cases h2 : k2 = k'
      · subst h2
        simp [storeSet, hbk, List.lookup]
      · have hb2 : (k2 == k') = false := beq_eq_false_iff_ne.mpr h2
        simp [storeSet, hbk, List.lookup, hb2, ih]

theorem find?_replaceFirstChar_found (chars : List Character) (c : String) (ch newCh : Character)
    (hfind : chars.find? (fun x => x.id == c) = some ch) (hid : newCh.id = ch.id) :
    (replaceFirstChar chars ch.id newCh).find? (fun x => x.id == c) = some newCh := by
  have hc : ch.id = c := by
    have := List.find?_some hfind
    exact eq_of_beq this
  induction chars with
  | nil => simp at hfind
  | cons h t ih =>
    by_cases hh : h.id = c
    · have hheq : ch = h := by
        rw [List.find?_cons_of_pos _ (by simp [hh])] at hfind
        exact (Option.some.injEq _ _ ▸ hfind).symm
      have : (h.id == ch.id) = true := by rw [hheq]; exact beq_self_eq_true _
      simp only [replaceFirstChar, this, if_true]
      rw [List.find?_cons_of_pos _ (by simp [hid, hc])]
    · have hb : (h.id == c) = false := beq_eq_false_iff_ne.mpr hh
      rw [List.find?_cons_of_neg _ (by simp [hb])] at hfind
      have hbid : (h.id == ch.id) = false := beq_eq_false_iff_ne.mpr (by rw [hc]; exact hh)
      simp only [replaceFirstChar, hbid, Bool.false_eq_true, if_false]
      rw [List.find?_cons_of_neg _ (by simp [hb])]
      exact ih hfind

theorem find?_replaceFirstChar_cases (chars : List Character) (cid : String)
    (newCh : Character) (c : String) (hid : newCh.id = cid) :
    (replaceFirstChar chars cid newCh).find? (fun x => x.id == c) = some newCh ∨
    (replaceFirstChar chars cid newCh).find? (fun x => x.id == c) =
      chars.find? (fun x => x.id == c) := by
  induction chars with
  | nil => right; rfl
  | cons h t ih =>
    by_cases hh : h.id = cid
    · have hb : (h.id == cid) = true := beq_iff_eq.mpr hh
      simp only [replaceFirstChar, hb, if_true]
      by_cases hc : newCh.id = c
      · left
        rw [List.find?_cons_of_pos _ (by simp [hc])]
      · right
        have hb2 : (newCh.id == c) = false := beq_eq_false_iff_ne.mpr hc
        have hb3 : (h.id == c) = false := by
          refine beq_eq_false_iff_ne.mpr ?_
          rw [hh, ← hid]; exact hc
        rw [List.find?_cons_of_neg _ (by simp [hb2]),
            List.find?_cons_of_neg _ (by simp [hb3])]
    · have hb : (h.id == cid) = false := beq_eq_false_iff_ne.mpr hh
      simp only [replaceFirstChar, hb, Bool.false_eq_true, if_false]
      by_cases hc : h.id = c
      · right
        rw [List.find?_cons_of_pos _ (by simp [hc]), List.find?_cons_of_pos _ (by simp [hc])]
      · have hb2 : (h.id == c) = false := beq_eq_false_iff_ne.mpr hc
        rw [List.find?_cons_of_neg _ (by simp [hb2]), List.find?_cons_of_neg _ (by simp [hb2])]
        exact ih



/-- One `mutate` invocation's arguments (used to state properties of call
sequences). -/
structure MutCall where
  campaign_id : String
  op : String
  char_id : Option String
  amount : Option Int
  text : Option String
  value : Option JVal

/-- The persistent state after one `mutate` call (a raised error leaves the
state as it was). -/
def runMutate (now : String) (jl : String → Option JVal) (st : SysState) (call : MutCall) :
    SysState :=
  (mutate now jl st call.campaign_id call.op call.char_id call.amount call.text call.value).2

/-- The persistent state after a sequence of `mutate` calls. -/
def runMutates (now : String) (jl : String → Option JVal) : SysState → List MutCall → SysState
  | st, [] => st
  | st, call :: rest => runMutates now jl (runMutate now jl st call) rest

/-- The stored hp of character `c` of campaign `cid`. -/
def hpOf (st : SysState) (cid c : String) : Option Int :=
  ((get_campaign st cid).bind (fun data => _find_character data c)).bind (fun ch => ch.hp)

/-- Inversion: a successful `hp_add` call pins down every intermediate value. -/
theorem mutate_hp_add_inv (now : String) (jl : String → Option JVal) (st : SysState)
    (cid : String) (char_id : Option String) (amount : Option Int) (text : Option String)
    (value : Option JVal) (doc : Campaign) (st2 : SysState)
    (h : mutate now jl st cid "hp_add" char_id amount text value = (.ok doc, st2)) :
    ∃ data c ch a, _load_campaign st cid = some data ∧ char_id = some c ∧
      _find_character data c = some ch ∧ amount = some a ∧
      doc = setCharacter data ch.id
        { ch with hp := some (if ch.hp.getD 0 + a < 0 then 0 else ch.hp.getD 0 + a) } ∧
      st2 = { store := storeSet st.store (_campaign_filename cid) doc,
              log := _log_event now st.log (mutateLogEntry cid "hp_add" char_id amount text value) } := by
  unfold mutate at h
  cases hl : _load_campaign st cid with
  | none => rw [hl] at h; simp at h
  | some data =>
    rw [hl] at h; dsimp only at h
    cases char_id with
    | none =>
      have hr : resolveChar data none = .ok none := rfl
      rw [hr] at h; dsimp only at h
      simp [applyOp] at h
    | some c =>
      cases hf : _find_character data c with
      | none =>
        have hr : resolveChar data (some c) =
            .error (.notFound ("Character " ++ c ++ " not found in campaign")) := by
          unfold resolveChar; dsimp only; rw [hf]
        rw [hr] at h; simp at h
      | some ch =>
        have hr : resolveChar data (some c) = .ok (some ch) := by
          unfold resolveChar; dsimp only; rw [hf]
        rw [hr] at h; dsimp only at h
        cases amount with
        | none => simp [applyOp] at h
        | some a =>
          rw [applyOp_hp_add] at h
          dsimp only at h
          rw [Prod.mk.injEq] at h
          obtain ⟨h1, h2⟩ := h
          rw [Except.ok.injEq] at h1
          exact ⟨data, c, ch, a, rfl, rfl, hf, rfl, h1.symm, by rw [← h2, h1]; rfl⟩



/-- A successful or failed `hp_add` call never leaves a character with
negative stored hp. -/
theorem hpOf_nonneg_step (now : String) (jl : String → Option JVal) (st : SysState)
    (cid c : String) (call : MutCall) (hop : call.op = "hp_add")
    (hinv : 0 ≤ (hpOf st cid c).getD 0) :
    0 ≤ (hpOf (runMutate now jl st call) cid c).getD 0 := by
  rcases mutate_state_eq_or now jl st call.campaign_id call.op call.char_id
      call.amount call.text call.value with ⟨e, he⟩ | ⟨doc, st2, hok⟩
  · unfold runMutate
    rw [he]
    exact hinv
  · unfold runMutate
    rw [hok]
    rw [hop] at hok
    obtain ⟨data2, c2, ch2, a2, hl2, hc2, hf2, ha2, hdoc, hst2⟩ :=
      mutate_hp_add_inv now jl st call.campaign_id call.char_id call.amount
        call.text call.value doc st2 hok
    subst hst2
    by_cases hkey : _campaign_filename cid = _campaign_filename call.campaign_id
    · have hg : get_campaign
          { store := storeSet st.store (_campaign_filename call.campaign_id) doc,
            log := _log_event now st.log
              (mutateLogEntry call.campaign_id "hp_add" call.char_id call.amount
                call.text call.value) } cid = some doc := by
        show List.lookup _ _ = _
        rw [show _campaign_filename cid = _campaign_filename call.campaign_id from hkey]
        exact lookup_storeSet_self _ _ _
      unfold hpOf
      rw [hg]
      subst hdoc
      unfold setCharacter _find_character
      dsimp only [Option.bind]
      simp only [Option.getD_some]
      rcases find?_replaceFirstChar_cases (data2.characters.getD []) ch2.id
          { ch2 with hp := some (if ch2.hp.getD 0 + a2 < 0 then 0 else ch2.hp.getD 0 + a2) }
          c rfl with hcase | hcase
      · rw [hcase]
        simp only [Option.bind_some]
        split_ifs <;> simp <;> omega
      · rw [hcase]
        have hgold : get_campaign st cid = some data2 := by
          show List.lookup _ _ = _
          rw [hkey]
          exact hl2
        unfold hpOf at hinv
        rw [hgold] at hinv
        unfold _find_character at hinv
        exact hinv
    · have hg : get_campaign
          { store := storeSet st.store (_campaign_filename call.campaign_id) doc,
            log := _log_event now st.log
              (mutateLogEntry call.campaign_id "hp_add" call.char_id call.amount
                call.text call.value) } cid = get_campaign st cid := by
        show List.lookup _ _ = _
        exact lookup_storeSet_ne _ _ _ _ hkey
      unfold hpOf
      rw [hg]
      exact hinv

/-- The hp-nonnegativity invariant over any sequence of `hp_add` calls. -/
theorem hpOf_nonneg_runMutates (now : String) (jl : String → Option JVal)
    (cid c : String) (calls : List MutCall) (hops : ∀ call ∈ calls, call.op = "hp_add") :
    ∀ st : SysState, 0 ≤ (hpOf st cid c).getD 0 →
      0 ≤ (hpOf (runMutates now jl st calls) cid c).getD 0 := by
  induction calls with
  | nil => exact fun st h => h
  | cons call rest ih =>
    intro st hinv
    exact ih (fun cl hcl => hops cl (by simp [hcl])) (runMutate now jl st call)
      (hpOf_nonneg_step now jl st cid c call (hops call (by simp)) hinv)

/-- C2: a successful `hp_add` sets the character's hp to the previous hp
plus the delta clamped below at 0 — both in the returned document and in the
persisted store — so after any single call hp equals `max 0 (prev + delta)`
(no upper bound is applied), and over any finite sequence of `hp_add` calls
a character's stored hp stays nonnegative. -/
theorem claim2_hp_add (now : String) (jl : String → Option JVal) (st : SysState)
    (cid c : String) (a : Int) (data : Campaign) (ch : Character)
    (hl : _load_campaign st cid = some data)
    (hfind : _find_character data c = some ch) :
    (mutate now jl st cid "hp_add" (some c) (some a) none none).1 =
      .ok (setCharacter data ch.id { ch with hp := some (max 0 (ch.hp.getD 0 + a)) }) ∧
    hpOf ((mutate now jl st cid "hp_add" (some c) (some a) none none).2) cid c =
      some (max 0 (ch.hp.getD 0 + a)) ∧
    (∀ calls : List MutCall, (∀ call ∈ calls, call.op = "hp_add") →
      0 ≤ (hpOf st cid c).getD 0 →
      0 ≤ (hpOf (runMutates now jl st calls) cid c).getD 0) := by
  have hmax : ∀ x : Int, (if x < 0 then 0 else x) = max 0 x := by
    intro x; rw [Int.max_def]; split_ifs <;> omega
  have hr : resolveChar data (some c) = .ok (some ch) := by
    unfold resolveChar; dsimp only; rw [hfind]
  have hmut := mutate_save now jl st cid "hp_add" (some c) (some a) none none data
      (setCharacter data ch.id
        { ch with hp := some (if ch.hp.getD 0 + a < 0 then 0 else ch.hp.getD 0 + a) })
      (some ch) hl hr (applyOp_hp_add data ch a none none (parseValue jl none))
  refine ⟨?_, ?_, ?_⟩
  · rw [hmut]
    simp only [hmax]
  · rw [hmut]
    have hg : get_campaign
        { store := storeSet st.store (_campaign_filename cid)
            (setCharacter data ch.id
              { ch with hp := some (if ch.hp.getD 0 + a < 0 then 0 else ch.hp.getD 0 + a) }),
          log := _log_event now st.log (mutateLogEntry cid "hp_add" (some c) (some a) none none) }
        cid = some (setCharacter data ch.id
              { ch with hp := some (if ch.hp.getD 0 + a < 0 then 0 else ch.hp.getD 0 + a) }) :=
      lookup_storeSet_self _ _ _
    unfold hpOf
    rw [hg]
    have hfind2 := find?_replaceFirstChar_found (data.characters.getD []) c ch
      { ch with hp := some (if ch.hp.getD 0 + a < 0 then 0 else ch.hp.getD 0 + a) } hfind rfl
    unfold setCharacter _find_character
    dsimp only [Option.bind]
    simp only [Option.getD_some]
    rw [hfind2]
    simp [hmax]
  · intro calls hops hstart
    exact hpOf_nonneg_runMutates now jl cid c calls hops st hstart



/-- A nonempty string prepended to anything is nonempty. -/
theorem append_left_ne_empty (a b : String) (ha : a ≠ "") : a ++ b ≠ "" := by
  intro h
  apply ha
  have hd := congrArg String.data h
  rw [String.data_append] at hd
  exact String.ext (List.append_eq_nil.mp hd).1

set_option maxHeartbeats 1600000 in
/-- Every error produced by the dispatch chain carries a nonempty message. -/
theorem applyOp_error_message (data : Campaign) (character : Option Character) (op : String)
    (amount : Option Int) (text : Option String) (value parsed_value : Option JVal)
    (e : MutError) (h : applyOp data character op amount text value parsed_value = .error e) :
    e.message ≠ "" := by
  by_cases hop : op ∈ registeredOps
  · simp only [registeredOps, List.mem_cons, List.not_mem_nil, or_false] at hop
    rcases hop with rfl | rfl | rfl | rfl | rfl | rfl | rfl | rfl | rfl | rfl | rfl | rfl | rfl | rfl | rfl
    all_goals simp only [applyOp, String.reduceBEq, reduceIte] at h
    all_goals repeat' split at h
    all_goals try cases h
    all_goals try decide
  · rw [applyOp_unknown data character op amount text value parsed_value hop] at h
    cases h
    exact append_left_ne_empty "Unknown op: " _ (by decide)

/-- Every error raised by `mutate` carries a nonempty message. -/
theorem mutate_error_message (now : String) (jl : String → Option JVal) (st : SysState)
    (campaign_id op : String) (char_id : Option String) (amount : Option Int)
    (text : Option String) (value : Option JVal) (e : MutError)
    (h : (mutate now jl st campaign_id op char_id amount text value).1 = .error e) :
    e.message ≠ "" := by
  unfold mutate at h
  cases hl : _load_campaign st campaign_id with
  | none =>
    rw [hl] at h
    simp only [Prod.fst] at h
    cases h
    exact append_left_ne_empty "Campaign " _ (by decide)
  | some data =>
    rw [hl] at h; dsimp only at h
    cases hr : resolveChar data char_id with
    | error e2 =>
      rw [hr] at h
      simp only [Prod.fst] at h
      cases h
      cases char_id with
      | none => simp [resolveChar] at hr
      | some c =>
        unfold resolveChar at hr
        dsimp only at hr
        cases hf : _find_character data c with
        | none =>
          rw [hf] at hr
          cases hr
          exact append_left_ne_empty "Character " _ (by decide)
        | some ch => rw [hf] at hr; cases hr
    | ok character =>
      rw [hr] at h; dsimp only at h
      cases ha : applyOp data character op amount text value (parseValue jl value) with
      | error e2 =>
        rw [ha] at h
        simp only [Prod.fst] at h
        cases h
        exact applyOp_error_message _ _ _ _ _ _ _ _ ha
      | ok outcome =>
        rw [ha] at h
        cases outcome <;> simp at h



/-- Concrete fixtures for witnesses: one campaign `c1` with one character
`h1`. -/
def hero : Character :=
  { id := "h1", name := "Hero", gold := some 0, hp := some 10, xp := some 0,
    notes := some "brave", inventory := some [] }

def sampleDoc : Campaign :=
  { id := some "c1", name := some "Campaign", day := some 1, location := none,
    notes := some "start", characters := some [hero], quests := some [], factions := some [],
    world_flags := some [] }

def sampleState : SysState := { store := [("c1.json", sampleDoc)], log := none }

/-- C4: a successful `history_log` call returns the loaded document
unmodified, leaves the store (hence every `get_campaign` read) unchanged,
and its only side effect is one appended log entry of type `"history"`. -/
theorem claim4_history_log_pure (now : String) (jl : String → Option JVal) (st : SysState)
    (campaign_id : String) (char_id : Option String) (amount : Option Int)
    (text : Option String) (value : Option JVal) (doc : Campaign) (st2 : SysState)
    (h : mutate now jl st campaign_id "history_log" char_id amount text value = (.ok doc, st2)) :
    _load_campaign st campaign_id = some doc ∧
    st2.store = st.store ∧
    (∀ x, get_campaign st2 x = get_campaign st x) ∧
    st2.log = some (st.log.getD [] ++
      [{ historyLogEntry campaign_id char_id amount text (parseValue jl value) with
          ts := some now }]) ∧
    (historyLogEntry campaign_id char_id amount text (parseValue jl value)).type =
      some "history" := by
  unfold mutate at h
  cases hl : _load_campaign st campaign_id with
  | none => rw [hl] at h; simp at h
  | some data =>
    rw [hl] at h; dsimp only at h
    cases hr : resolveChar data char_id with
    | error e => rw [hr] at h; simp at h
    | ok character =>
      rw [hr] at h; dsimp only at h
      rw [applyOp_history] at h
      dsimp only at h
      rw [Prod.mk.injEq] at h
      obtain ⟨h1, h2⟩ := h
      rw [Except.ok.injEq] at h1
      refine ⟨by rw [h1], ?_, ?_, ?_, rfl⟩
      · rw [← h2]
      · intro x; rw [← h2]; rfl
      · rw [← h2]; rfl

/-- C10: when `char_id` is provided but unresolved in the loaded campaign,
`mutate` fails with NotFound before any validation or transition runs,
whatever the op is, and neither the store nor the log changes. -/
theorem claim10_char_notFound (now : String) (jl : String → Option JVal) (st : SysState)
    (campaign_id op c : String) (amount : Option Int) (text : Option String)
    (value : Option JVal) (data : Campaign)
    (hl : _load_campaign st campaign_id = some data)
    (hc : _find_character data c = none) :
    mutate now jl st campaign_id op (some c) amount text value =
      (.error (.notFound ("Character " ++ c ++ " not found in campaign")), st) :=
  mutate_char_notFound now jl st campaign_id op c amount text value data hl hc

/-- Witness for C10: a character-free op (`day_add`) with a bogus char id. -/
theorem claim10_char_notFound_witness :
    mutate "T" (fun _ => none) sampleState "c1" "day_add" (some "ghost") (some 1) none none =
      (.error (.notFound "Character ghost not found in campaign"), sampleState) :=
  claim10_char_notFound "T" (fun _ => none) sampleState "c1" "day_add" "ghost" (some 1)
    none none sampleDoc rfl rfl

/-- C1 (amended): every raised `mutate` error leaves the persistent state
untouched and carries a nonempty message; an unregistered op name fails with
UnknownOperation whenever the campaign loads and any given char id resolves,
and with NotFound when the campaign does not load — in both cases without
writing to storage or the log. -/
theorem claim1_caller_errors (now : String) (jl : String → Option JVal) (st : SysState)
    (campaign_id op : String) (char_id : Option String) (amount : Option Int)
    (text : Option String) (value : Option JVal) :
    (∀ e, (mutate now jl st campaign_id op char_id amount text value).1 = .error e →
      (mutate now jl st campaign_id op char_id amount text value).2 = st ∧
      e.message ≠ "") ∧
    (op ∉ registeredOps →
      (∀ data character, _load_campaign st campaign_id = some data →
        resolveChar data char_id = .ok character →
        mutate now jl st campaign_id op char_id amount text value =
          (.error (.unknownOperation ("Unknown op: " ++ op)), st)) ∧
      (_load_campaign st campaign_id = none →
        mutate now jl st campaign_id op char_id amount text value =
          (.error (.notFound ("Campaign " ++ campaign_id ++ " not found")), st))) := by
  refine ⟨?_, ?_⟩
  · intro e he
    exact ⟨mutate_error_state now jl st campaign_id op char_id amount text value e he,
      mutate_error_message now jl st campaign_id op char_id amount text value e he⟩
  · intro hop
    refine ⟨?_, ?_⟩
    · intro data character hl hr
      unfold mutate
      rw [hl]; dsimp only; rw [hr]; dsimp only
      rw [applyOp_unknown data character op amount text value (parseValue jl value) hop]
    · intro hl
      exact mutate_campaign_notFound now jl st campaign_id op char_id amount text value hl

/-- Counterexample to C1 as frozen: with no stored campaign, an unregistered
op name fails with NotFound (loading precedes dispatch), not
UnknownOperation. -/
theorem claim1_caller_errors_counterexample :
    (mutate "T" (fun _ => none) { store := [], log := none } "c1" "bogus" none none none
        none).1 = .error (.notFound "Campaign c1 not found") ∧
    ∀ m, (mutate "T" (fun _ => none) { store := [], log := none } "c1" "bogus" none none none
        none).1 ≠ .error (.unknownOperation m) := by
  refine ⟨rfl, ?_⟩
  intro m h
  rw [show (mutate "T" (fun _ => none) { store := [], log := none } "c1" "bogus" none none
      none none).1 = .error (.notFound "Campaign c1 not found") from rfl] at h
  simp at h

/-- Witness for C1: the unknown op `"bogus"` against an existing campaign
fails with UnknownOperation and an unchanged state. -/
theorem claim1_caller_errors_witness :
    mutate "T" (fun _ => none) sampleState "c1" "bogus" none none none none =
      (.error (.unknownOperation "Unknown op: bogus"), sampleState) := by
  have h := (claim1_caller_errors "T" (fun _ => none) sampleState "c1" "bogus" none none
      none none).2 (by decide)
  exact h.1 sampleDoc none rfl rfl

/-- Witness for C4: `get_campaign` is identical before and after a
`history_log` call. -/
theorem claim4_history_log_pure_witness :
    get_campaign ((mutate "T" (fun _ => none) sampleState "c1" "history_log" none none
        none (some (JVal.str "evt"))).2) "c1" = get_campaign sampleState "c1" := by
  have h := claim4_history_log_pure "T" (fun _ => none) sampleState "c1" none none
      none (some (JVal.str "evt")) sampleDoc
      { store := sampleState.store, log := _log_event "T" sampleState.log (historyLogEntry "c1" none none none (some (JVal.str "evt"))) }
      rfl
  exact h.2.2.1 "c1"

/-- Witness for C2: `hp_add` of −15 on hp 10 clamps the stored hp to 0. -/
theorem claim2_hp_add_witness :
    hpOf ((mutate "T" (fun _ => none) sampleState "c1" "hp_add" (some "h1") (some (-15))
        none none).2) "c1" "h1" = some 0 := by
  have h := (claim2_hp_add "T" (fun _ => none) sampleState "c1" "h1" (-15) sampleDoc hero
      rfl rfl).2.1
  rw [h]
  decide

/-! ### C5: note appending -/


theorem append_a_ne_empty (y : String) : (y ++ "a" : String) ≠ "" := by
  intro h
  have hd := congrArg String.data h
  rw [String.data_append] at hd
  simp at hd

theorem getLast_append_a (y : String) : (y ++ "a" : String).data.getLast? = some 'a' := by
  rw [String.data_append]
  exact List.getLast?_concat _

/-- The newline rule of the note-append snippet. -/
theorem appendNoteText_rule (e t : String) :
    (e ≠ "" → e.data.getLast? ≠ some '\n' → appendNoteText e t = e ++ "\n" ++ t) ∧
    (e.data.getLast? = some '\n' → appendNoteText e t = e ++ t) ∧
    appendNoteText "" t = t := by
  refine ⟨?_, ?_, ?_⟩
  · intro hne hlast
    unfold appendNoteText
    rw [if_pos]
    rw [Bool.and_eq_true, decide_eq_true_eq, bne_iff_ne]
    exact ⟨hne, hlast⟩
  · intro hlast
    unfold appendNoteText
    rw [if_neg]
    rw [Bool.and_eq_true, bne_iff_ne]
    rintro ⟨-, hx⟩
    exact hx hlast
  · unfold appendNoteText
    rw [if_neg]
    · exact String.ext (by simp [String.data_append])
    · rw [Bool.and_eq_true, decide_eq_true_eq]
      rintro ⟨hx, -⟩
      exact hx rfl

/-- Appending `"a"` then `"b"` is one append of `"a\nb"`, whatever the prior
text. -/
theorem appendNoteText_chain (e : String) :
    appendNoteText (appendNoteText e "a") "b" = appendNoteText e "a\nb" := by
  have hx : ∀ y : String, appendNoteText (y ++ "a") "b" = (y ++ "a") ++ "\n" ++ "b" :=
    fun y => ((appendNoteText_rule (y ++ "a") "b").1 (append_a_ne_empty y)
      (by rw [getLast_append_a]; decide))
  by_cases he : e = ""
  · subst he
    rfl
  · by_cases hlast : e.data.getLast? = some '\n'
    · rw [(appendNoteText_rule e "a").2.1 hlast, hx,
          (appendNoteText_rule e "a\nb").2.1 hlast]
      refine String.ext ?_
      simp [String.data_append]
    · rw [(appendNoteText_rule e "a").1 he hlast, hx,
          (appendNoteText_rule e "a\nb").1 he hlast]
      refine String.ext ?_
      simp [String.data_append]



/-- The stored campaign-level notes. -/
def campaignNotesOf (st : SysState) (cid : String) : Option String :=
  (get_campaign st cid).bind (fun data => data.notes)

/-- The stored notes of character `c` of campaign `cid`. -/
def charNotesOf (st : SysState) (cid c : String) : Option String :=
  ((get_campaign st cid).bind (fun data => _find_character data c)).bind (fun ch => ch.notes)

theorem load_after_save (now : String) (st : SysState) (cid op : String)
    (char_id : Option String) (amount : Option Int) (text : Option String)
    (value : Option JVal) (newData : Campaign) :
    _load_campaign
      { store := storeSet st.store (_campaign_filename cid) newData,
        log := _log_event now st.log (mutateLogEntry cid op char_id amount text value) } cid =
      some newData :=
  lookup_storeSet_self _ _ _

theorem charNotesOf_state (st : SysState) (cid c : String) (data : Campaign)
    (ch : Character) (hl : _load_campaign st cid = some data)
    (hfind : _find_character data c = some ch) :
    charNotesOf st cid c = ch.notes := by
  unfold charNotesOf get_campaign
  rw [hl]
  dsimp only [Option.bind]
  rw [hfind]

theorem campaignNotesOf_state (st : SysState) (cid : String) (data : Campaign)
    (hl : _load_campaign st cid = some data) :
    campaignNotesOf st cid = data.notes := by
  unfold campaignNotesOf get_campaign
  rw [hl]
  rfl

theorem find_setCharacter (data : Campaign) (c : String) (ch newch : Character)
    (hfind : _find_character data c = some ch) (hid : newch.id = ch.id) :
    _find_character (setCharacter data ch.id newch) c = some newch := by
  unfold _find_character setCharacter
  dsimp only
  rw [Option.getD_some]
  exact find?_replaceFirstChar_found _ _ _ _ hfind hid



/-- C5: the note-appending operations share one append rule — a separating
newline is inserted only when the existing text is non-empty and does not
already end with a newline, and empty text is never prefixed — appending
`"a"` then `"b"` equals appending `"a\nb"` at the string level for every
prior text, every note op applies exactly this rule to its target, and the
two-call/one-call equivalence holds end-to-end through `mutate` for both the
character and the campaign targets. -/
theorem claim5_note_append_assoc (now1 now2 now3 : String) (jl : String → Option JVal)
    (st : SysState) (cid c : String) (data : Campaign) (ch : Character)
    (hl : _load_campaign st cid = some data)
    (hfind : _find_character data c = some ch) :
    (∀ e t : String,
      (e ≠ "" → e.data.getLast? ≠ some '\n' → appendNoteText e t = e ++ "\n" ++ t) ∧
      (e.data.getLast? = some '\n' → appendNoteText e t = e ++ t) ∧
      appendNoteText "" t = t) ∧
    (∀ e : String, appendNoteText (appendNoteText e "a") "b" = appendNoteText e "a\nb") ∧
    (∀ t : String, t ≠ "" →
      charNotesOf ((mutate now1 jl st cid "char_note_add" (some c) none (some t) none).2) cid c =
        some (appendNoteText (ch.notes.getD "") t) ∧
      charNotesOf ((mutate now1 jl st cid "note_append" (some c) none (some t) none).2) cid c =
        some (appendNoteText (ch.notes.getD "") t) ∧
      campaignNotesOf ((mutate now1 jl st cid "campaign_note_add" none none (some t) none).2) cid =
        some (appendNoteText (data.notes.getD "") t) ∧
      campaignNotesOf ((mutate now1 jl st cid "note_append" none none (some t) none).2) cid =
        some (appendNoteText (data.notes.getD "") t)) ∧
    charNotesOf ((mutate now2 jl
        ((mutate now1 jl st cid "char_note_add" (some c) none (some "a") none).2)
        cid "char_note_add" (some c) none (some "b") none).2) cid c =
      charNotesOf ((mutate now3 jl st cid "char_note_add" (some c) none (some "a\nb")
        none).2) cid c ∧
    campaignNotesOf ((mutate now2 jl
        ((mutate now1 jl st cid "campaign_note_add" none none (some "a") none).2)
        cid "campaign_note_add" none none (some "b") none).2) cid =
      campaignNotesOf ((mutate now3 jl st cid "campaign_note_add" none none (some "a\nb")
        none).2) cid := by
  have hrc : ∀ (d : Campaign) (chx : Character), _find_character d c = some chx →
      resolveChar d (some c) = .ok (some chx) := by
    intro d chx hf
    unfold resolveChar
    dsimp only
    rw [hf]
  have hchar : ∀ (nw : String) (stx : SysState) (d : Campaign) (chx : Character) (t : String),
      t ≠ "" → _load_campaign stx cid = some d → _find_character d c = some chx →
      mutate nw jl stx cid "char_note_add" (some c) none (some t) none =
        (.ok (setCharacter d chx.id
            { chx with notes := some (appendNoteText (chx.notes.getD "") t) }),
         { store := storeSet stx.store (_campaign_filename cid)
             (setCharacter d chx.id
               { chx with notes := some (appendNoteText (chx.notes.getD "") t) }),
           log := _log_event nw stx.log
             (mutateLogEntry cid "char_note_add" (some c) none (some t) none) }) := by
    intro nw stx d chx t ht hlx hfx
    exact mutate_save nw jl stx cid "char_note_add" (some c) none (some t) none d _ (some chx)
      hlx (hrc d chx hfx) (applyOp_char_note_add d chx t none none (parseValue jl none) ht)
  have hcharN : ∀ (nw : String) (stx : SysState) (d : Campaign) (chx : Character) (t : String),
      t ≠ "" → _load_campaign stx cid = some d → _find_character d c = some chx →
      charNotesOf ((mutate nw jl stx cid "char_note_add" (some c) none (some t) none).2) cid c =
        some (appendNoteText (chx.notes.getD "") t) := by
    intro nw stx d chx t ht hlx hfx
    rw [hchar nw stx d chx t ht hlx hfx]
    exact charNotesOf_state _ cid c _ _ (load_after_save _ _ _ _ _ _ _ _ _)
      (find_setCharacter d c chx
        { chx with notes := some (appendNoteText (chx.notes.getD "") t) } hfx rfl)
  have hcamp : ∀ (nw : String) (stx : SysState) (d : Campaign) (t : String),
      t ≠ "" → _load_campaign stx cid = some d →
      mutate nw jl stx cid "campaign_note_add" none none (some t) none =
        (.ok { d with notes := some (appendNoteText (d.notes.getD "") t) },
         { store := storeSet stx.store (_campaign_filename cid)
             { d with notes := some (appendNoteText (d.notes.getD "") t) },
           log := _log_event nw stx.log
             (mutateLogEntry cid "campaign_note_add" none none (some t) none) }) := by
    intro nw stx d t ht hlx
    exact mutate_save nw jl stx cid "campaign_note_add" none none (some t) none d _ none
      hlx rfl (applyOp_campaign_note_add d none t none none (parseValue jl none) ht)
  have hcampN : ∀ (nw : String) (stx : SysState) (d : Campaign) (t : String),
      t ≠ "" → _load_campaign stx cid = some d →
      campaignNotesOf ((mutate nw jl stx cid "campaign_note_add" none none (some t) none).2)
          cid = some (appendNoteText (d.notes.getD "") t) := by
    intro nw stx d t ht hlx
    rw [hcamp nw stx d t ht hlx]
    exact campaignNotesOf_state _ cid _ (load_after_save _ _ _ _ _ _ _ _ _)
  refine ⟨fun e t => appendNoteText_rule e t, appendNoteText_chain, ?_, ?_, ?_⟩
  · intro t ht
    refine ⟨hcharN now1 st data ch t ht hl hfind, ?_, hcampN now1 st data t ht hl, ?_⟩
    · have hm := mutate_save now1 jl st cid "note_append" (some c) none (some t) none data _
        (some ch) hl (hrc data ch hfind)
        (applyOp_note_append_char data ch t none none (parseValue jl none) ht)
      rw [hm]
      exact charNotesOf_state _ cid c _ _ (load_after_save _ _ _ _ _ _ _ _ _)
        (find_setCharacter data c ch
          { ch with notes := some (appendNoteText (ch.notes.getD "") t) } hfind rfl)
    · have hm := mutate_save now1 jl st cid "note_append" none none (some t) none data _
        none hl rfl
        (applyOp_note_append_campaign data t none none (parseValue jl none) ht)
      rw [hm]
      exact campaignNotesOf_state _ cid _ (load_after_save _ _ _ _ _ _ _ _ _)
  · have h1 := hchar now1 st data ch "a" (by decide) hl hfind
    have hl1 : _load_campaign
        ((mutate now1 jl st cid "char_note_add" (some c) none (some "a") none).2) cid =
        some (setCharacter data ch.id
          { ch with notes := some (appendNoteText (ch.notes.getD "") "a") }) := by
      rw [h1]
      exact load_after_save _ _ _ _ _ _ _ _ _
    have hf1 : _find_character
        (setCharacter data ch.id
          { ch with notes := some (appendNoteText (ch.notes.getD "") "a") }) c =
        some { ch with notes := some (appendNoteText (ch.notes.getD "") "a") } :=
      find_setCharacter data c ch
        { ch with notes := some (appendNoteText (ch.notes.getD "") "a") } hfind rfl
    have h2 := hcharN now2 _ _ _ "b" (by decide) hl1 hf1
    rw [h2, hcharN now3 st data ch "a\nb" (by decide) hl hfind]
    exact congrArg some (appendNoteText_chain (ch.notes.getD ""))
  · have h1 := hcamp now1 st data "a" (by decide) hl
    have hl1 : _load_campaign
        ((mutate now1 jl st cid "campaign_note_add" none none (some "a") none).2) cid =
        some { data with notes := some (appendNoteText (data.notes.getD "") "a") } := by
      rw [h1]
      exact load_after_save _ _ _ _ _ _ _ _ _
    have h2 := hcampN now2 _ _ "b" (by decide) hl1
    rw [h2, hcampN now3 st data "a\nb" (by decide) hl]
    exact congrArg some (appendNoteText_chain (data.notes.getD ""))

/-- Witness for C5: appending `"a"` then `"b"` to the campaign notes
`"start"` equals appending `"a\nb"`. -/
theorem claim5_note_append_assoc_witness :
    campaignNotesOf ((mutate "T2" (fun _ => none)
        ((mutate "T1" (fun _ => none) sampleState "c1" "campaign_note_add" none none
          (some "a") none).2)
        "c1" "campaign_note_add" none none (some "b") none).2) "c1" =
      campaignNotesOf ((mutate "T3" (fun _ => none) sampleState "c1" "campaign_note_add"
        none none (some "a\nb") none).2) "c1" ∧
    campaignNotesOf ((mutate "T3" (fun _ => none) sampleState "c1" "campaign_note_add"
        none none (some "a\nb") none).2) "c1" = some "start\na\nb" := by
  constructor
  · exact (claim5_note_append_assoc "T1" "T2" "T3" (fun _ => none) sampleState "c1" "h1"
      sampleDoc hero rfl rfl).2.2.2.2
  · rfl

/-! ### C6: quest and faction upserts -/


theorem length_updateFirstQuest (qs : List Quest) (k : String) (f : Quest → Quest) :
    (updateFirstQuest qs k f).length = qs.length := by
  induction qs with
  | nil => rfl
  | cons q rest ih =>
    unfold updateFirstQuest
    by_cases h : (q.id == k) = true
    · rw [if_pos h]; rfl
    · rw [if_neg h]; simpa using ih

theorem find?_updateFirstQuest_found (qs : List Quest) (k : String) (f : Quest → Quest)
    (q0 : Quest) (hfind : qs.find? (fun q => q.id == k) = some q0)
    (hid : (f q0).id = q0.id) :
    (updateFirstQuest qs k f).find? (fun q => q.id == k) = some (f q0) := by
  induction qs with
  | nil => simp at hfind
  | cons q rest ih =>
    by_cases h : (q.id == k) = true
    · have hrw : List.find? (fun x : Quest => x.id == k) (q :: rest) = some q :=
        List.find?_cons_of_pos rest (by exact h)
      rw [hrw] at hfind
      have hq : q = q0 := by injection hfind
      subst hq
      unfold updateFirstQuest
      rw [if_pos h]
      have hrw2 : List.find? (fun x : Quest => x.id == k) (f q :: rest) = some (f q) :=
        List.find?_cons_of_pos rest
          (by rw [show ((f q).id == k) = (q.id == k) from by rw [hid]]; exact h)
      exact hrw2
    · have hrw : List.find? (fun x : Quest => x.id == k) (q :: rest) =
          List.find? (fun x : Quest => x.id == k) rest :=
        List.find?_cons_of_neg rest (by simp [h])
      rw [hrw] at hfind
      unfold updateFirstQuest
      rw [if_neg h]
      have hrw2 : List.find? (fun x : Quest => x.id == k) (q :: updateFirstQuest rest k f) =
          List.find? (fun x : Quest => x.id == k) (updateFirstQuest rest k f) :=
        List.find?_cons_of_neg _ (by simp [h])
      rw [hrw2]
      exact ih hfind

theorem getElem?_updateFirstQuest_of_ne (qs : List Quest) (k : String) (f : Quest → Quest) :
    ∀ (i : Nat) (q : Quest), qs[i]? = some q → q.id ≠ k →
      (updateFirstQuest qs k f)[i]? = some q := by
  induction qs with
  | nil => intro i q h; simp at h
  | cons hd rest ih =>
    intro i q hq hne
    unfold updateFirstQuest
    by_cases h : (hd.id == k) = true
    · rw [if_pos h]
      cases i with
      | zero =>
        simp at hq
        subst hq
        exact absurd (eq_of_beq h) hne
      | succ n =>
        simpa using hq
    · rw [if_neg h]
      cases i with
      | zero => simpa using hq
      | succ n =>
        simp only [List.getElem?_cons_succ] at hq ⊢
        exact ih n q hq hne

theorem updateFirstQuest_append_singleton (l1 : List Quest) (x : Quest) (k : String)
    (f : Quest → Quest) (h : ∀ q ∈ l1, (q.id == k) = false) (hx : (x.id == k) = true) :
    updateFirstQuest (l1 ++ [x]) k f = l1 ++ [f x] := by
  induction l1 with
  | nil =>
    rw [List.nil_append]
    simp only [updateFirstQuest, hx, if_true]
    rfl
  | cons hd rest ih =>
    rw [List.cons_append, List.cons_append]
    simp only [updateFirstQuest, h hd (by simp), Bool.false_eq_true, if_false]
    exact congrArg _ (ih (fun q hq => h q (by simp [hq])))

theorem length_updateFirstFaction (fs : List Faction) (k : String) (f : Faction → Faction) :
    (updateFirstFaction fs k f).length = fs.length := by
  induction fs with
  | nil => rfl
  | cons fa rest ih =>
    unfold updateFirstFaction
    by_cases h : (fa.id == k) = true
    · rw [if_pos h]; rfl
    · rw [if_neg h]; simpa using ih

theorem find?_updateFirstFaction_found (fs : List Faction) (k : String)
    (f : Faction → Faction) (f0 : Faction)
    (hfind : fs.find? (fun fa => fa.id == k) = some f0)
    (hid : (f f0).id = f0.id) :
    (updateFirstFaction fs k f).find? (fun fa => fa.id == k) = some (f f0) := by
  induction fs with
  | nil => simp at hfind
  | cons fa rest ih =>
    by_cases h : (fa.id == k) = true
    · have hrw : List.find? (fun x : Faction => x.id == k) (fa :: rest) = some fa :=
        List.find?_cons_of_pos rest (by exact h)
      rw [hrw] at hfind
      have hq : fa = f0 := by injection hfind
      subst hq
      unfold updateFirstFaction
      rw [if_pos h]
      have hrw2 : List.find? (fun x : Faction => x.id == k) (f fa :: rest) = some (f fa) :=
        List.find?_cons_of_pos rest
          (by rw [show ((f fa).id == k) = (fa.id == k) from by rw [hid]]; exact h)
      exact hrw2
    · have hrw : List.find? (fun x : Faction => x.id == k) (fa :: rest) =
          List.find? (fun x : Faction => x.id == k) rest :=
        List.find?_cons_of_neg rest (by simp [h])
      rw [hrw] at hfind
      unfold updateFirstFaction
      rw [if_neg h]
      have hrw2 : List.find? (fun x : Faction => x.id == k)
          (fa :: updateFirstFaction rest k f) =
          List.find? (fun x : Faction => x.id == k) (updateFirstFaction rest k f) :=
        List.find?_cons_of_neg _ (by simp [h])
      rw [hrw2]
      exact ih hfind

theorem getElem?_updateFirstFaction_of_ne (fs : List Faction) (k : String)
    (f : Faction → Faction) :
    ∀ (i : Nat) (fa : Faction), fs[i]? = some fa → fa.id ≠ k →
      (updateFirstFaction fs k f)[i]? = some fa := by
  induction fs with
  | nil => intro i fa h; simp at h
  | cons hd rest ih =>
    intro i fa hq hne
    unfold updateFirstFaction
    by_cases h : (hd.id == k) = true
    · rw [if_pos h]
      cases i with
      | zero =>
        simp at hq
        subst hq
        exact absurd (eq_of_beq h) hne
      | succ n =>
        simpa using hq
    · rw [if_neg h]
      cases i with
      | zero => simpa using hq
      | succ n =>
        simp only [List.getElem?_cons_succ] at hq ⊢
        exact ih n fa hq hne

theorem updateFirstFaction_append_singleton (l1 : List Faction) (x : Faction) (k : String)
    (f : Faction → Faction) (h : ∀ fa ∈ l1, (fa.id == k) = false) (hx : (x.id == k) = true) :
    updateFirstFaction (l1 ++ [x]) k f = l1 ++ [f x] := by
  induction l1 with
  | nil =>
    rw [List.nil_append]
    simp only [updateFirstFaction, hx, if_true]
    rfl
  | cons hd rest ih =>
    rw [List.cons_append, List.cons_append]
    simp only [updateFirstFaction, h hd (by simp), Bool.false_eq_true, if_false]
    exact congrArg _ (ih (fun fa hf => h fa (by simp [hf])))

/-- The stored quests of campaign `cid`. -/
def questsOf (st : SysState) (cid : String) : List Quest :=
  match get_campaign st cid with
  | some data => data.quests.getD []
  | none => []

/-- The stored factions of campaign `cid`. -/
def factionsOf (st : SysState) (cid : String) : List Faction :=
  match get_campaign st cid with
  | some data => data.factions.getD []
  | none => []

theorem questsOf_state (st : SysState) (cid : String) (data : Campaign)
    (hl : _load_campaign st cid = some data) :
    questsOf st cid = data.quests.getD [] := by
  unfold questsOf get_campaign
  rw [hl]

theorem factionsOf_state (st : SysState) (cid : String) (data : Campaign)
    (hl : _load_campaign st cid = some data) :
    factionsOf st cid = data.factions.getD [] := by
  unfold factionsOf get_campaign
  rw [hl]

theorem questFieldUpdate_id (fields : List (String × JVal)) (q : Quest) :
    (questFieldUpdate fields q).id = q.id := by
  unfold questFieldUpdate
  repeat' split
  all_goals rfl



/-- The `quest_update` field rules, in propositional form. -/
theorem questFieldUpdate_rules (fields : List (String × JVal)) (q : Quest) :
    (questFieldUpdate fields q).id = q.id ∧
    (objGet fields "title" = none → (questFieldUpdate fields q).title = q.title) ∧
    (objGet fields "title" = some .null → (questFieldUpdate fields q).title = q.title) ∧
    (∀ t, objGet fields "title" = some t → t ≠ .null →
      (questFieldUpdate fields q).title = pyStr t) ∧
    (objGet fields "status" = none → (questFieldUpdate fields q).status = q.status) ∧
    (objGet fields "status" = some .null → (questFieldUpdate fields q).status = q.status) ∧
    (∀ v, objGet fields "status" = some v → v ≠ .null →
      (questFieldUpdate fields q).status = pyStr v) ∧
    (objGet fields "notes" = none → (questFieldUpdate fields q).notes = q.notes) ∧
    (∀ v, objGet fields "notes" = some v → (questFieldUpdate fields q).notes = v) := by
  refine ⟨questFieldUpdate_id fields q, ?_, ?_, ?_, ?_, ?_, ?_, ?_, ?_⟩
  · intro h
    unfold questFieldUpdate
    rw [h]
    repeat' split
    all_goals first | rfl | contradiction | simp_all
  · intro h
    unfold questFieldUpdate
    rw [h]
    repeat' split
    all_goals first | rfl | contradiction | simp_all
  · intro t htt htn
    unfold questFieldUpdate
    rw [htt]
    cases t
    case null => exact absurd rfl htn
    all_goals repeat' split
    all_goals first | rfl | contradiction | simp_all
  · intro h
    unfold questFieldUpdate
    rw [h]
    repeat' split
    all_goals first | rfl | contradiction | simp_all
  · intro h
    unfold questFieldUpdate
    rw [h]
    repeat' split
    all_goals first | rfl | contradiction | simp_all
  · intro v hvv hvn
    unfold questFieldUpdate
    rw [hvv]
    cases v
    case null => exact absurd rfl hvn
    all_goals repeat' split
    all_goals first | rfl | contradiction | simp_all
  · intro h
    unfold questFieldUpdate
    rw [h]
    repeat' split
    all_goals first | rfl | contradiction | simp_all
  · intro v hvv
    unfold questFieldUpdate
    rw [hvv]
    repeat' split
    all_goals first | rfl | contradiction | simp_all

/-- C6: `quest_update` and `faction_rep_add` are id-keyed upserts that never
duplicate: with the id present, the single (first) matching record is
updated in place — same length, every other position untouched — a quest
overwriting `title`/`status` only when provided and non-null and `notes`
whenever the key is present, a faction always overwriting `name` and
accumulating `rep` by the given delta; with the id absent exactly one record
is appended, and a second call with the same id updates that record in
place instead of appending again. -/
theorem claim6_upserts (now1 now2 : String) (jl : String → Option JVal)
    (st : SysState) (cid : String) (data : Campaign)
    (fields1 fields2 : List (String × JVal)) (idv1 idv2 : JVal) (d1 d2 : Int)
    (hl : _load_campaign st cid = some data)
    (hid1 : objGet fields1 "id" = some idv1)
    (hid2 : objGet fields2 "id" = some idv2)
    (hsame : pyStr idv2 = pyStr idv1)
    (hd1 : pyInt ((objGet fields1 "delta").getD (.num 0)) = some d1)
    (hd2 : pyInt ((objGet fields2 "delta").getD (.num 0)) = some d2) :
    (∀ (fields : List (String × JVal)) (q : Quest),
      (questFieldUpdate fields q).id = q.id ∧
      (objGet fields "title" = none → (questFieldUpdate fields q).title = q.title) ∧
      (objGet fields "title" = some .null → (questFieldUpdate fields q).title = q.title) ∧
      (∀ t, objGet fields "title" = some t → t ≠ .null →
        (questFieldUpdate fields q).title = pyStr t) ∧
      (objGet fields "status" = none → (questFieldUpdate fields q).status = q.status) ∧
      (objGet fields "status" = some .null → (questFieldUpdate fields q).status = q.status) ∧
      (∀ v, objGet fields "status" = some v → v ≠ .null →
        (questFieldUpdate fields q).status = pyStr v) ∧
      (objGet fields "notes" = none → (questFieldUpdate fields q).notes = q.notes) ∧
      (∀ v, objGet fields "notes" = some v → (questFieldUpdate fields q).notes = v)) ∧
    (∀ (fields : List (String × JVal)) (fid : String) (d : Int) (f : Faction),
      (factionFieldUpdate fields fid d f).id = f.id ∧
      (factionFieldUpdate fields fid d f).name =
        pyStr ((objGet fields "name").getD (.str fid)) ∧
      (factionFieldUpdate fields fid d f).rep = some (f.rep.getD 0 + d)) ∧
    ((data.quests.getD []).find? (fun q => q.id == pyStr idv1) = none →
      questsOf ((mutate now1 jl st cid "quest_update" none none none
          (some (.obj fields1))).2) cid =
        (data.quests.getD []) ++ [newQuestFrom fields1 (pyStr idv1)]) ∧
    (∀ q0, (data.quests.getD []).find? (fun q => q.id == pyStr idv1) = some q0 →
      questsOf ((mutate now1 jl st cid "quest_update" none none none
          (some (.obj fields1))).2) cid =
        updateFirstQuest (data.quests.getD []) (pyStr idv1) (questFieldUpdate fields1) ∧
      (questsOf ((mutate now1 jl st cid "quest_update" none none none
          (some (.obj fields1))).2) cid).length = (data.quests.getD []).length ∧
      (questsOf ((mutate now1 jl st cid "quest_update" none none none
          (some (.obj fields1))).2) cid).find? (fun q => q.id == pyStr idv1) =
        some (questFieldUpdate fields1 q0) ∧
      (∀ (i : Nat) (q : Quest), (data.quests.getD [])[i]? = some q → q.id ≠ pyStr idv1 →
        (questsOf ((mutate now1 jl st cid "quest_update" none none none
          (some (.obj fields1))).2) cid)[i]? = some q)) ∧
    ((data.quests.getD []).find? (fun q => q.id == pyStr idv1) = none →
      questsOf ((mutate now2 jl ((mutate now1 jl st cid "quest_update" none none none
          (some (.obj fields1))).2) cid "quest_update" none none none
          (some (.obj fields2))).2) cid =
        (data.quests.getD []) ++
          [questFieldUpdate fields2 (newQuestFrom fields1 (pyStr idv1))]) ∧
    ((data.factions.getD []).find? (fun f => f.id == pyStr idv1) = none →
      factionsOf ((mutate now1 jl st cid "faction_rep_add" none none none
          (some (.obj fields1))).2) cid =
        (data.factions.getD []) ++ [newFactionFrom fields1 (pyStr idv1) d1]) ∧
    (∀ f0, (data.factions.getD []).find? (fun f => f.id == pyStr idv1) = some f0 →
      factionsOf ((mutate now1 jl st cid "faction_rep_add" none none none
          (some (.obj fields1))).2) cid =
        updateFirstFaction (data.factions.getD []) (pyStr idv1)
          (factionFieldUpdate fields1 (pyStr idv1) d1) ∧
      (factionsOf ((mutate now1 jl st cid "faction_rep_add" none none none
          (some (.obj fields1))).2) cid).length = (data.factions.getD []).length ∧
      (factionsOf ((mutate now1 jl st cid "faction_rep_add" none none none
          (some (.obj fields1))).2) cid).find? (fun f => f.id == pyStr idv1) =
        some (factionFieldUpdate fields1 (pyStr idv1) d1 f0) ∧
      (∀ (i : Nat) (f : Faction), (data.factions.getD [])[i]? = some f →
        f.id ≠ pyStr idv1 →
        (factionsOf ((mutate now1 jl st cid "faction_rep_add" none none none
          (some (.obj fields1))).2) cid)[i]? = some f)) ∧
    ((data.factions.getD []).find? (fun f => f.id == pyStr idv1) = none →
      factionsOf ((mutate now2 jl ((mutate now1 jl st cid "faction_rep_add" none none none
          (some (.obj fields1))).2) cid "faction_rep_add" none none none
          (some (.obj fields2))).2) cid =
        (data.factions.getD []) ++
          [factionFieldUpdate fields2 (pyStr idv2) d2
            (newFactionFrom fields1 (pyStr idv1) d1)]) := by
  have hmq1 := mutate_save now1 jl st cid "quest_update" none none none
    (some (.obj fields1)) data _ none hl rfl
    (applyOp_quest_update data none none none (some (.obj fields1)) fields1 idv1 hid1)
  have hq1 : questsOf ((mutate now1 jl st cid "quest_update" none none none
      (some (.obj fields1))).2) cid =
      if ((data.quests.getD []).find? (fun q => q.id == pyStr idv1)).isSome then
        updateFirstQuest (data.quests.getD []) (pyStr idv1) (questFieldUpdate fields1)
      else (data.quests.getD []) ++ [newQuestFrom fields1 (pyStr idv1)] := by
    rw [hmq1]
    exact questsOf_state _ cid _ (load_after_save _ _ _ _ _ _ _ _ _)
  have hmf1 := mutate_save now1 jl st cid "faction_rep_add" none none none
    (some (.obj fields1)) data _ none hl rfl
    (applyOp_faction_rep_add data none none none (some (.obj fields1)) fields1 idv1 d1
      hid1 hd1)
  have hf1 : factionsOf ((mutate now1 jl st cid "faction_rep_add" none none none
      (some (.obj fields1))).2) cid =
      if ((data.factions.getD []).find? (fun f => f.id == pyStr idv1)).isSome then
        updateFirstFaction (data.factions.getD []) (pyStr idv1)
          (factionFieldUpdate fields1 (pyStr idv1) d1)
      else (data.factions.getD []) ++ [newFactionFrom fields1 (pyStr idv1) d1] := by
    rw [hmf1]
    exact factionsOf_state _ cid _ (load_after_save _ _ _ _ _ _ _ _ _)
  refine ⟨fun fields q => questFieldUpdate_rules fields q, ?_, ?_, ?_, ?_, ?_, ?_, ?_⟩
  · intro fields fid d f
    exact ⟨rfl, rfl, rfl⟩
  · intro hnone
    rw [hq1, hnone]
    try rfl
  · intro q0 hq0
    have hq1' : questsOf ((mutate now1 jl st cid "quest_update" none none none
        (some (.obj fields1))).2) cid =
        updateFirstQuest (data.quests.getD []) (pyStr idv1) (questFieldUpdate fields1) := by
      rw [hq1, hq0]
      rfl
    refine ⟨hq1', ?_, ?_, ?_⟩
    · rw [hq1']
      exact length_updateFirstQuest _ _ _
    · rw [hq1']
      exact find?_updateFirstQuest_found _ _ _ _ hq0 (questFieldUpdate_id fields1 q0)
    · intro i q hiq hne
      rw [hq1']
      exact getElem?_updateFirstQuest_of_ne _ _ _ i q hiq hne
  · intro hnone
    have hl1 : _load_campaign ((mutate now1 jl st cid "quest_update" none none none
        (some (.obj fields1))).2) cid =
          some { data with quests := some ((data.quests.getD []) ++ [newQuestFrom fields1 (pyStr idv1)]) } := by
      rw [hmq1]
      simp only [hnone, Option.isSome_none, Bool.false_eq_true, if_false]
      exact load_after_save _ _ _ _ _ _ _ _ _
    have hmq2 := mutate_save now2 jl _ cid "quest_update" none none none
      (some (.obj fields2)) _ _ none hl1 rfl
      (applyOp_quest_update _ none none none (some (.obj fields2)) fields2 idv2 hid2)
    have hq2 : questsOf ((mutate now2 jl ((mutate now1 jl st cid "quest_update" none none
        none (some (.obj fields1))).2) cid "quest_update" none none none
        (some (.obj fields2))).2) cid =
        if (((data.quests.getD []) ++ [newQuestFrom fields1 (pyStr idv1)]).find?
            (fun q => q.id == pyStr idv2)).isSome then
          updateFirstQuest ((data.quests.getD []) ++ [newQuestFrom fields1 (pyStr idv1)])
            (pyStr idv2) (questFieldUpdate fields2)
        else ((data.quests.getD []) ++ [newQuestFrom fields1 (pyStr idv1)]) ++
          [newQuestFrom fields2 (pyStr idv2)] := by
      rw [hmq2]
      exact questsOf_state _ cid _ (load_after_save _ _ _ _ _ _ _ _ _)
    rw [hq2, hsame]
    have hx : ((newQuestFrom fields1 (pyStr idv1)).id == pyStr idv1) = true :=
      beq_self_eq_true _
    have hone : List.find? (fun q : Quest => q.id == pyStr idv1)
        [newQuestFrom fields1 (pyStr idv1)] = some (newQuestFrom fields1 (pyStr idv1)) :=
      List.find?_cons_of_pos [] (by exact hx)
    have hfind2 : ((data.quests.getD []) ++ [newQuestFrom fields1 (pyStr idv1)]).find?
        (fun q => q.id == pyStr idv1) = some (newQuestFrom fields1 (pyStr idv1)) := by
      rw [List.find?_append, hnone, hone]
      rfl
    rw [hfind2]
    have hprefix : ∀ q ∈ (data.quests.getD []), (q.id == pyStr idv1) = false := by
      intro q hq
      have := List.find?_eq_none.mp hnone q hq
      simpa using this
    rw [updateFirstQuest_append_singleton _ _ _ _ hprefix hx]
    rfl
  · intro hnone
    rw [hf1, hnone]
    try rfl
  · intro f0 hf0
    have hf1' : factionsOf ((mutate now1 jl st cid "faction_rep_add" none none none
        (some (.obj fields1))).2) cid =
        updateFirstFaction (data.factions.getD []) (pyStr idv1)
          (factionFieldUpdate fields1 (pyStr idv1) d1) := by
      rw [hf1, hf0]
      rfl
    refine ⟨hf1', ?_, ?_, ?_⟩
    · rw [hf1']
      exact length_updateFirstFaction _ _ _
    · rw [hf1']
      exact find?_updateFirstFaction_found _ _ _ _ hf0 rfl
    · intro i f hif hne
      rw [hf1']
      exact getElem?_updateFirstFaction_of_ne _ _ _ i f hif hne
  · intro hnone
    have hl1 : _load_campaign ((mutate now1 jl st cid "faction_rep_add" none none none
        (some (.obj fields1))).2) cid =
          some { data with factions := some ((data.factions.getD []) ++ [newFactionFrom fields1 (pyStr idv1) d1]) } := by
      rw [hmf1]
      simp only [hnone, Option.isSome_none, Bool.false_eq_true, if_false]
      exact load_after_save _ _ _ _ _ _ _ _ _
    have hmf2 := mutate_save now2 jl _ cid "faction_rep_add" none none none
      (some (.obj fields2)) _ _ none hl1 rfl
      (applyOp_faction_rep_add _ none none none (some (.obj fields2)) fields2 idv2 d2
        hid2 hd2)
    have hf2 : factionsOf ((mutate now2 jl ((mutate now1 jl st cid "faction_rep_add" none
        none none (some (.obj fields1))).2) cid "faction_rep_add" none none none
        (some (.obj fields2))).2) cid =
        if (((data.factions.getD []) ++ [newFactionFrom fields1 (pyStr idv1) d1]).find?
            (fun f => f.id == pyStr idv2)).isSome then
          updateFirstFaction
            ((data.factions.getD []) ++ [newFactionFrom fields1 (pyStr idv1) d1])
            (pyStr idv2) (factionFieldUpdate fields2 (pyStr idv2) d2)
        else ((data.factions.getD []) ++ [newFactionFrom fields1 (pyStr idv1) d1]) ++
          [newFactionFrom fields2 (pyStr idv2) d2] := by
      rw [hmf2]
      exact factionsOf_state _ cid _ (load_after_save _ _ _ _ _ _ _ _ _)
    rw [hf2]
    rw [show pyStr idv2 = pyStr idv1 from hsame]
    have hx : ((newFactionFrom fields1 (pyStr idv1) d1).id == pyStr idv1) = true :=
      beq_self_eq_true _
    have hone : List.find? (fun f : Faction => f.id == pyStr idv1)
        [newFactionFrom fields1 (pyStr idv1) d1] =
        some (newFactionFrom fields1 (pyStr idv1) d1) :=
      List.find?_cons_of_pos [] (by exact hx)
    have hfind2 : ((data.factions.getD []) ++
        [newFactionFrom fields1 (pyStr idv1) d1]).find? (fun f => f.id == pyStr idv1) =
        some (newFactionFrom fields1 (pyStr idv1) d1) := by
      rw [List.find?_append, hnone, hone]
      rfl
    rw [hfind2]
    have hprefix : ∀ f ∈ (data.factions.getD []), (f.id == pyStr idv1) = false := by
      intro f hf
      have := List.find?_eq_none.mp hnone f hf
      simpa using this
    rw [updateFirstFaction_append_singleton _ _ _ _ hprefix hx]
    rfl



/-- Witness for C6: inserting quest/faction `q1` and then updating it by id
leaves exactly one record with the merged fields (and accumulated rep). -/
theorem claim6_upserts_witness :
    questsOf ((mutate "T2" (fun _ => none) ((mutate "T1" (fun _ => none) sampleState "c1"
        "quest_update" none none none
        (some (.obj [("id", .str "q1"), ("title", .str "Ring")]))).2)
        "c1" "quest_update" none none none
        (some (.obj [("id", .str "q1"), ("status", .str "done"), ("delta", .num 2)]))).2)
        "c1" =
      [{ id := "q1", title := "Ring", status := "done", notes := .null }] ∧
    factionsOf ((mutate "T2" (fun _ => none) ((mutate "T1" (fun _ => none) sampleState "c1"
        "faction_rep_add" none none none
        (some (.obj [("id", .str "q1"), ("title", .str "Ring")]))).2)
        "c1" "faction_rep_add" none none none
        (some (.obj [("id", .str "q1"), ("status", .str "done"), ("delta", .num 2)]))).2)
        "c1" =
      [{ id := "q1", name := "q1", rep := some 2 }] := by
  have h := claim6_upserts "T1" "T2" (fun _ => none) sampleState "c1" sampleDoc
      [("id", .str "q1"), ("title", .str "Ring")]
      [("id", .str "q1"), ("status", .str "done"), ("delta", .num 2)]
      (.str "q1") (.str "q1") 0 2 rfl rfl rfl rfl rfl rfl
  constructor
  · rw [h.2.2.2.2.1 rfl]
    rfl
  · rw [h.2.2.2.2.2.2.2 rfl]
    rfl

end RpgLedger

namespace RpgLedger

/-- Inventory well-formedness: the spec's data-model invariant (unique item
ids, all stored quantities strictly positive). -/
def wfInv (inv : List Item) : Prop :=
  (∀ it ∈ inv, 0 < it.qty.getD 0) ∧ (inv.map (fun it => it.id)).Nodup

/-- The stored inventory of character `c` of campaign `cid`. -/
def invOf (st : SysState) (cid c : String) : List Item :=
  match (get_campaign st cid).bind (fun data => _find_character data c) with
  | some ch => ch.inventory.getD []
  | none => []

/-- The stored quantity of an item (0 when absent, `get("qty") or 0`
otherwise). -/
def invQty (inv : List Item) (item_id : String) : Int :=
  match inv.find? (fun it => it.id == item_id) with
  | some it => it.qty.getD 0
  | none => 0

/-- Whether an item id occurs in the inventory. -/
def invHas (inv : List Item) (item_id : String) : Bool :=
  (inv.find? (fun it => it.id == item_id)).isSome

theorem invOf_state (st : SysState) (cid c : String) (data : Campaign) (ch : Character)
    (hl : _load_campaign st cid = some data) (hfind : _find_character data c = some ch) :
    invOf st cid c = ch.inventory.getD [] := by
  unfold invOf get_campaign
  rw [hl]
  dsimp only [Option.bind]
  rw [hfind]

/-- A well-formed inventory holds an item iff its quantity is strictly
positive. -/
theorem invHas_iff_pos (inv : List Item) (i : String)
    (hwf : ∀ it ∈ inv, 0 < it.qty.getD 0) :
    invHas inv i = true ↔ 0 < invQty inv i := by
  unfold invHas invQty
  cases hf : inv.find? (fun it => it.id == i) with
  | none => simp
  | some it =>
    simp only [Option.isSome_some, true_iff]
    exact hwf it (List.mem_of_find?_eq_some hf)

theorem find?_updateFirstItem_found (inv : List Item) (k : String) (f : Item → Item)
    (it0 : Item) (hfind : inv.find? (fun it => it.id == k) = some it0)
    (hid : (f it0).id = it0.id) :
    (updateFirstItem inv k f).find? (fun it => it.id == k) = some (f it0) := by
  induction inv with
  | nil => simp at hfind
  | cons it rest ih =>
    by_cases h : (it.id == k) = true
    · have hrw : List.find? (fun x : Item => x.id == k) (it :: rest) = some it :=
        List.find?_cons_of_pos rest (by exact h)
      rw [hrw] at hfind
      have hq : it = it0 := by injection hfind
      subst hq
      unfold updateFirstItem
      rw [if_pos h]
      have hrw2 : List.find? (fun x : Item => x.id == k) (f it :: rest) = some (f it) :=
        List.find?_cons_of_pos rest
          (by rw [show ((f it).id == k) = (it.id == k) from by rw [hid]]; exact h)
      exact hrw2
    · have hrw : List.find? (fun x : Item => x.id == k) (it :: rest) =
          List.find? (fun x : Item => x.id == k) rest :=
        List.find?_cons_of_neg rest (by simp [h])
      rw [hrw] at hfind
      unfold updateFirstItem
      rw [if_neg h]
      have hrw2 : List.find? (fun x : Item => x.id == k) (it :: updateFirstItem rest k f) =
          List.find? (fun x : Item => x.id == k) (updateFirstItem rest k f) :=
        List.find?_cons_of_neg _ (by simp [h])
      rw [hrw2]
      exact ih hfind

theorem find?_updateFirstItem_ne (inv : List Item) (k j : String) (f : Item → Item)
    (hne : j ≠ k) (hf : ∀ it, (f it).id = it.id) :
    (updateFirstItem inv k f).find? (fun it => it.id == j) =
      inv.find? (fun it => it.id == j) := by
  induction inv with
  | nil => rfl
  | cons it rest ih =>
    unfold updateFirstItem
    by_cases h : (it.id == k) = true
    · rw [if_pos h]
      by_cases hj : (it.id == j) = true
      · exact absurd ((eq_of_beq hj).symm.trans (eq_of_beq h)) hne
      · have h1 : List.find? (fun x : Item => x.id == j) (f it :: rest) =
            List.find? (fun x : Item => x.id == j) rest :=
          List.find?_cons_of_neg rest (by simp [hf it, hj])
        have h2 : List.find? (fun x : Item => x.id == j) (it :: rest) =
            List.find? (fun x : Item => x.id == j) rest :=
          List.find?_cons_of_neg rest (by simp [hj])
        rw [h1, h2]
    · rw [if_neg h]
      by_cases hj : (it.id == j) = true
      · have h1 : List.find? (fun x : Item => x.id == j) (it :: updateFirstItem rest k f) =
            some it := List.find?_cons_of_pos _ (by exact hj)
        have h2 : List.find? (fun x : Item => x.id == j) (it :: rest) = some it :=
          List.find?_cons_of_pos rest (by exact hj)
        rw [h1, h2]
      · have h1 : List.find? (fun x : Item => x.id == j) (it :: updateFirstItem rest k f) =
            List.find? (fun x : Item => x.id == j) (updateFirstItem rest k f) :=
          List.find?_cons_of_neg _ (by simp [hj])
        have h2 : List.find? (fun x : Item => x.id == j) (it :: rest) =
            List.find? (fun x : Item => x.id == j) rest :=
          List.find?_cons_of_neg rest (by simp [hj])
        rw [h1, h2]
        exact ih

theorem ids_updateFirstItem (inv : List Item) (k : String) (f : Item → Item)
    (hf : ∀ it, (f it).id = it.id) :
    (updateFirstItem inv k f).map (fun it => it.id) = inv.map (fun it => it.id) := by
  induction inv with
  | nil => rfl
  | cons it rest ih =>
    unfold updateFirstItem
    by_cases h : (it.id == k) = true
    · rw [if_pos h]
      simp [hf it]
    · rw [if_neg h]
      simpa using ih

end RpgLedger

namespace RpgLedger

theorem removeItems_of_no_match (inv : List Item) (k : String) (q : Int)
    (h : ∀ it ∈ inv, (it.id == k) = false) :
    removeItems inv k q = inv := by
  induction inv with
  | nil => rfl
  | cons it rest ih =>
    unfold removeItems
    rw [if_neg (by simp [h it (by simp)])]
    exact congrArg _ (ih (fun x hx => h x (by simp [hx])))

theorem find?_removeItems_ne (inv : List Item) (k j : String) (q : Int) (hne : j ≠ k) :
    (removeItems inv k q).find? (fun it => it.id == j) =
      inv.find? (fun it => it.id == j) := by
  induction inv with
  | nil => rfl
  | cons it rest ih =>
    unfold removeItems
    by_cases h : (it.id == k) = true
    · rw [if_pos h]
      have hj : (it.id == j) = false := by
        refine beq_eq_false_iff_ne.mpr ?_
        rw [eq_of_beq h]
        exact fun hx => hne hx.symm
      have h2 : List.find? (fun x : Item => x.id == j) (it :: rest) =
          List.find? (fun x : Item => x.id == j) rest :=
        List.find?_cons_of_neg rest (by simp [hj])
      rw [h2]
      by_cases hq : it.qty.getD 0 - q > 0
      · rw [if_pos hq]
        have h1 : List.find? (fun x : Item => x.id == j)
            ({ it with qty := some (it.qty.getD 0 - q) } :: removeItems rest k q) =
            List.find? (fun x : Item => x.id == j) (removeItems rest k q) :=
          List.find?_cons_of_neg _ (by simp [hj])
        rw [h1]
        exact ih
      · rw [if_neg hq]
        exact ih
    · rw [if_neg h]
      by_cases hj : (it.id == j) = true
      · have h1 : List.find? (fun x : Item => x.id == j) (it :: removeItems rest k q) =
            some it := List.find?_cons_of_pos _ (by exact hj)
        have h2 : List.find? (fun x : Item => x.id == j) (it :: rest) = some it :=
          List.find?_cons_of_pos rest (by exact hj)
        rw [h1, h2]
      · have h1 : List.find? (fun x : Item => x.id == j) (it :: removeItems rest k q) =
            List.find? (fun x : Item => x.id == j) (removeItems rest k q) :=
          List.find?_cons_of_neg _ (by simp [hj])
        have h2 : List.find? (fun x : Item => x.id == j) (it :: rest) =
            List.find? (fun x : Item => x.id == j) rest :=
          List.find?_cons_of_neg rest (by simp [hj])
        rw [h1, h2]
        exact ih

theorem ids_removeItems_sublist (inv : List Item) (k : String) (q : Int) :
    List.Sublist ((removeItems inv k q).map (fun it => it.id))
      (inv.map (fun it => it.id)) := by
  induction inv with
  | nil => exact List.Sublist.refl _
  | cons it rest ih =>
    unfold removeItems
    by_cases h : (it.id == k) = true
    · rw [if_pos h]
      by_cases hq : it.qty.getD 0 - q > 0
      · rw [if_pos hq]
        simpa using List.Sublist.cons₂ it.id ih
      · rw [if_neg hq]
        exact List.Sublist.trans ih (List.sublist_cons_self _ _)
    · rw [if_neg h]
      simpa using List.Sublist.cons₂ it.id ih

theorem wf_removeItems (inv : List Item) (k : String) (q : Int)
    (hwf : ∀ it ∈ inv, 0 < it.qty.getD 0) :
    ∀ it ∈ removeItems inv k q, 0 < it.qty.getD 0 := by
  induction inv with
  | nil => intro it h; simp [removeItems] at h
  | cons it rest ih =>
    intro x hx
    unfold removeItems at hx
    by_cases h : (it.id == k) = true
    · rw [if_pos h] at hx
      by_cases hq : it.qty.getD 0 - q > 0
      · rw [if_pos hq] at hx
        rcases List.mem_cons.mp hx with hx | hx
        · subst hx
          simpa using hq
        · exact ih (fun y hy => hwf y (by simp [hy])) x hx
      · rw [if_neg hq] at hx
        exact ih (fun y hy => hwf y (by simp [hy])) x hx
    · rw [if_neg h] at hx
      rcases List.mem_cons.mp hx with hx | hx
      · subst hx
        exact hwf x (by simp)
      · exact ih (fun y hy => hwf y (by simp [hy])) x hx

theorem wf_updateFirstItem_addQty (inv : List Item) (k : String) (q : Int)
    (hwf : ∀ it ∈ inv, 0 < it.qty.getD 0) (hq : 0 < q) :
    ∀ it ∈ updateFirstItem inv k
      (fun it => { it with qty := some (it.qty.getD 0 + q) }), 0 < it.qty.getD 0 := by
  induction inv with
  | nil => intro it h; simp [updateFirstItem] at h
  | cons it rest ih =>
    intro x hx
    unfold updateFirstItem at hx
    by_cases h : (it.id == k) = true
    · rw [if_pos h] at hx
      rcases List.mem_cons.mp hx with hx | hx
      · subst hx
        have := hwf it (by simp)
        simp only [Option.getD_some]
        omega
      · exact hwf x (by simp [hx])
    · rw [if_neg h] at hx
      rcases List.mem_cons.mp hx with hx | hx
      · subst hx
        exact hwf x (by simp)
      · exact ih (fun y hy => hwf y (by simp [hy])) x hx

theorem find?_removeItems_self (inv : List Item) (k : String) (q : Int) (it0 : Item)
    (hnodup : (inv.map (fun it => it.id)).Nodup)
    (hfound : inv.find? (fun it => it.id == k) = some it0) :
    (0 < it0.qty.getD 0 - q →
      (removeItems inv k q).find? (fun it => it.id == k) =
        some { it0 with qty := some (it0.qty.getD 0 - q) }) ∧
    (it0.qty.getD 0 - q ≤ 0 →
      (removeItems inv k q).find? (fun it => it.id == k) = none) := by
  induction inv with
  | nil => simp at hfound
  | cons it rest ih =>
    by_cases h : (it.id == k) = true
    · have hrw : List.find? (fun x : Item => x.id == k) (it :: rest) = some it :=
        List.find?_cons_of_pos rest (by exact h)
      rw [hrw] at hfound
      have hit : it = it0 := by injection hfound
      subst hit
      have hrest : ∀ y ∈ rest, (y.id == k) = false := by
        intro y hy
        refine beq_eq_false_iff_ne.mpr ?_
        intro hyk
        have hne := (List.nodup_cons.mp hnodup).1
        refine hne ?_
        show it.id ∈ List.map (fun x : Item => x.id) rest
        rw [eq_of_beq h, ← hyk]
        exact List.mem_map_of_mem _ hy
      have hrest2 : removeItems rest k q = rest := removeItems_of_no_match rest k q hrest
      have hrestfind : List.find? (fun x : Item => x.id == k) rest = none :=
        List.find?_eq_none.mpr (by intro x hx; simp [hrest x hx])
      constructor
      · intro hpos
        unfold removeItems
        rw [if_pos h, if_pos (by omega)]
        have : List.find? (fun x : Item => x.id == k)
            ({ it with qty := some (it.qty.getD 0 - q) } :: removeItems rest k q) =
            some { it with qty := some (it.qty.getD 0 - q) } :=
          List.find?_cons_of_pos _ (by exact h)
        exact this
      · intro hle
        unfold removeItems
        rw [if_pos h, if_neg (by omega)]
        rw [hrest2]
        exact hrestfind
    · have hrw : List.find? (fun x : Item => x.id == k) (it :: rest) =
          List.find? (fun x : Item => x.id == k) rest :=
        List.find?_cons_of_neg rest (by simp [h])
      rw [hrw] at hfound
      have ih2 := ih (List.nodup_cons.mp hnodup).2 hfound
      constructor
      · intro hpos
        unfold removeItems
        rw [if_neg h]
        have h1 : List.find? (fun x : Item => x.id == k) (it :: removeItems rest k q) =
            List.find? (fun x : Item => x.id == k) (removeItems rest k q) :=
          List.find?_cons_of_neg _ (by simp [h])
        rw [h1]
        exact ih2.1 hpos
      · intro hle
        unfold removeItems
        rw [if_neg h]
        have h1 : List.find? (fun x : Item => x.id == k) (it :: removeItems rest k q) =
            List.find? (fun x : Item => x.id == k) (removeItems rest k q) :=
          List.find?_cons_of_neg _ (by simp [h])
        rw [h1]
        exact ih2.2 hle

end RpgLedger

namespace RpgLedger

/-- An inventory operation on one item id, as the claim quantifies over
them. -/
inductive QtyOp where
  | add (q : Int)
  | remove (q : Int)

/-- The quantity carried by the operation. -/
def QtyOp.qty : QtyOp → Int
  | .add q => q
  | .remove q => q

/-- The per-step effect on the item's quantity (absent read as 0): an add
accumulates, a remove clamps at 0. -/
def QtyOp.apply (x : Int) : QtyOp → Int
  | .add q => x + q
  | .remove q => max 0 (x - q)

/-- The clamped stepwise fold of a sequence of inventory operations. -/
def applyQtyOps : Int → List QtyOp → Int
  | x, [] => x
  | x, op :: rest => applyQtyOps (op.apply x) rest

/-- The `mutate` call corresponding to one inventory operation. -/
def invCall (cid c item : String) : QtyOp → MutCall
  | .add q =>
    { campaign_id := cid, op := "inventory_add", char_id := some c, amount := none,
      text := none, value := some (.obj [("id", .str item), ("qty", .num q)]) }
  | .remove q =>
    { campaign_id := cid, op := "inventory_remove", char_id := some c, amount := none,
      text := none, value := some (.obj [("id", .str item), ("qty", .num q)]) }

theorem find?_append_ne (inv : List Item) (new : Item) (j : String)
    (hne : (new.id == j) = false) :
    (inv ++ [new]).find? (fun it => it.id == j) = inv.find? (fun it => it.id == j) := by
  rw [List.find?_append]
  cases hf : inv.find? (fun it => it.id == j) with
  | some it => rfl
  | none =>
    have h1 : List.find? (fun x : Item => x.id == j) [new] = none :=
      List.find?_eq_none.mpr (by intro x hx; simp at hx; subst hx; simp [hne])
    rw [h1]
    rfl

theorem find?_append_self (inv : List Item) (new : Item) (k : String)
    (hnone : inv.find? (fun it => it.id == k) = none) (hx : (new.id == k) = true) :
    (inv ++ [new]).find? (fun it => it.id == k) = some new := by
  rw [List.find?_append, hnone]
  have h1 : List.find? (fun x : Item => x.id == k) [new] = some new :=
    List.find?_cons_of_pos [] (by exact hx)
  rw [h1]
  rfl

end RpgLedger

namespace RpgLedger

/-- The result returned by one `mutate` call. -/
def runMutateRes (now : String) (jl : String → Option JVal) (st : SysState) (call : MutCall) :
    Except MutError Campaign :=
  (mutate now jl st call.campaign_id call.op call.char_id call.amount call.text call.value).1

/-- One successful inventory operation, end to end through `mutate`: the call
succeeds, the stored inventory stays well-formed, the named item's quantity
moves by the stepwise rule (`add` accumulates, `remove` clamps at 0 and drops
the record when it would reach 0), and every other item id is untouched. -/
theorem inv_step (now : String) (jl : String → Option JVal) (st : SysState)
    (cid c item : String) (data : Campaign) (ch : Character) (op : QtyOp)
    (hl : _load_campaign st cid = some data)
    (hfind : _find_character data c = some ch)
    (hwf : wfInv (ch.inventory.getD []))
    (hq : 1 ≤ op.qty) :
    ∃ ch2 : Character,
      (∃ doc, runMutateRes now jl st (invCall cid c item op) = .ok doc) ∧
      _load_campaign (runMutate now jl st (invCall cid c item op)) cid =
        some (setCharacter data ch.id ch2) ∧
      _find_character (setCharacter data ch.id ch2) c = some ch2 ∧
      ch2.id = ch.id ∧
      wfInv (ch2.inventory.getD []) ∧
      invQty (ch2.inventory.getD []) item = op.apply (invQty (ch.inventory.getD []) item) ∧
      ∀ j, j ≠ item →
        (ch2.inventory.getD []).find? (fun it => it.id == j) =
          (ch.inventory.getD []).find? (fun it => it.id == j) := by
  have hrc : resolveChar data (some c) = .ok (some ch) := by
    unfold resolveChar; dsimp only; rw [hfind]
  rcases op with q | q
  · dsimp only [QtyOp.qty] at hq
    have happ := applyOp_inventory_add data ch none none
      (some (JVal.obj [("id", JVal.str item), ("qty", JVal.num q)]))
      [("id", JVal.str item), ("qty", JVal.num q)] (JVal.str item) q rfl rfl (by omega)
    have hmut := mutate_save now jl st cid "inventory_add" (some c) none none
      (some (JVal.obj [("id", JVal.str item), ("qty", JVal.num q)])) data _ (some ch)
      hl hrc happ
    refine ⟨{ ch with inventory := some (
        if ((ch.inventory.getD []).find? (fun it => it.id == item)).isSome then
          updateFirstItem (ch.inventory.getD []) item
            (fun it => { it with qty := some (it.qty.getD 0 + q) })
        else (ch.inventory.getD []) ++ [{ id := item, name := item, qty := some q }]) },
      ?_, ?_, ?_, rfl, ?_, ?_, ?_⟩
    · dsimp only [runMutateRes, invCall]
      rw [hmut]
      exact ⟨_, rfl⟩
    · dsimp only [runMutate, invCall]
      rw [hmut]
      exact load_after_save _ _ _ _ _ _ _ _ _
    · exact find_setCharacter data c ch _ hfind rfl
    · show wfInv (if ((ch.inventory.getD []).find? (fun it => it.id == item)).isSome then _
        else _)
      by_cases hfi : ((ch.inventory.getD []).find? (fun it => it.id == item)).isSome = true
      · rw [if_pos hfi]
        exact ⟨wf_updateFirstItem_addQty _ _ _ hwf.1 (by omega),
          by rw [ids_updateFirstItem (ch.inventory.getD []) item
              (fun it => { it with qty := some (it.qty.getD 0 + q) }) (fun it => rfl)]
             exact hwf.2⟩
      · rw [if_neg hfi]
        have hnone : (ch.inventory.getD []).find? (fun it => it.id == item) = none :=
          Option.not_isSome_iff_eq_none.mp hfi
        constructor
        · intro it hit
          rcases List.mem_append.mp hit with h | h
          · exact hwf.1 it h
          · simp only [List.mem_singleton] at h
            subst h
            simp only [Option.getD_some]
            omega
        · rw [List.map_append]
          simp only [List.map_cons, List.map_nil]
          refine List.Nodup.append hwf.2 (List.nodup_singleton _) ?_
          intro a ha hb
          simp only [List.mem_singleton] at hb
          subst hb
          obtain ⟨it, hit, hida⟩ := List.mem_map.mp ha
          have hfa := List.find?_eq_none.mp hnone it hit
          simp only [Bool.not_eq_true, beq_eq_false_iff_ne, ne_eq] at hfa
          exact hfa hida
    · show invQty (if ((ch.inventory.getD []).find? (fun it => it.id == item)).isSome then _
        else _) item = _
      by_cases hfi : ((ch.inventory.getD []).find? (fun it => it.id == item)).isSome = true
      · obtain ⟨it0, hit0⟩ := Option.isSome_iff_exists.mp hfi
        rw [if_pos hfi]
        have h1 := find?_updateFirstItem_found (ch.inventory.getD []) item
          (fun it => { it with qty := some (it.qty.getD 0 + q) }) it0 hit0 rfl
        unfold invQty
        rw [h1, hit0]
        rfl
      · have hnone : (ch.inventory.getD []).find? (fun it => it.id == item) = none :=
          Option.not_isSome_iff_eq_none.mp hfi
        rw [if_neg hfi]
        have h1 := find?_append_self (ch.inventory.getD [])
          { id := item, name := item, qty := some q } item hnone (by simp)
        unfold invQty
        rw [h1, hnone]
        show q = 0 + q
        omega
    · intro j hj
      show ((if ((ch.inventory.getD []).find? (fun it => it.id == item)).isSome then _
        else _ : List Item)).find? (fun it => it.id == j) = _
      by_cases hfi : ((ch.inventory.getD []).find? (fun it => it.id == item)).isSome = true
      · rw [if_pos hfi]
        exact find?_updateFirstItem_ne (ch.inventory.getD []) item j
          (fun it => { it with qty := some (it.qty.getD 0 + q) }) hj (fun it => rfl)
      · rw [if_neg hfi]
        exact find?_append_ne _ _ _ (beq_eq_false_iff_ne.mpr (fun hx => hj hx.symm))
  · dsimp only [QtyOp.qty] at hq
    have happ := applyOp_inventory_remove data ch none none
      (some (JVal.obj [("id", JVal.str item), ("qty", JVal.num q)]))
      [("id", JVal.str item), ("qty", JVal.num q)] (JVal.str item) q rfl rfl (by omega)
    have hmut := mutate_save now jl st cid "inventory_remove" (some c) none none
      (some (JVal.obj [("id", JVal.str item), ("qty", JVal.num q)])) data _ (some ch)
      hl hrc happ
    refine ⟨{ ch with inventory := some (removeItems (ch.inventory.getD []) item q) },
      ?_, ?_, ?_, rfl, ?_, ?_, ?_⟩
    · dsimp only [runMutateRes, invCall]
      rw [hmut]
      exact ⟨_, rfl⟩
    · dsimp only [runMutate, invCall]
      rw [hmut]
      exact load_after_save _ _ _ _ _ _ _ _ _
    · exact find_setCharacter data c ch _ hfind rfl
    · exact ⟨wf_removeItems _ _ _ hwf.1,
        List.Nodup.sublist (ids_removeItems_sublist _ _ _) hwf.2⟩
    · show invQty (removeItems (ch.inventory.getD []) item q) item =
        max 0 (invQty (ch.inventory.getD []) item - q)
      cases hf : (ch.inventory.getD []).find? (fun it => it.id == item) with
      | none =>
        have hrm : removeItems (ch.inventory.getD []) item q = ch.inventory.getD [] :=
          removeItems_of_no_match _ _ _
            (fun it hit => by simpa using List.find?_eq_none.mp hf it hit)
        unfold invQty
        rw [hrm, hf]
        show (0 : Int) = max 0 (0 - q)
        omega
      | some it0 =>
        have hpair := find?_removeItems_self (ch.inventory.getD []) item q it0 hwf.2 hf
        by_cases hpos : 0 < it0.qty.getD 0 - q
        · unfold invQty
          rw [hpair.1 hpos, hf]
          show it0.qty.getD 0 - q = max 0 (it0.qty.getD 0 - q)
          omega
        · unfold invQty
          rw [hpair.2 (by omega), hf]
          show (0 : Int) = max 0 (it0.qty.getD 0 - q)
          omega
    · intro j hj
      show (removeItems (ch.inventory.getD []) item q).find? (fun it => it.id == j) = _
      exact find?_removeItems_ne _ _ _ _ hj

end RpgLedger

namespace RpgLedger

/-- Folding `inv_step` over a sequence of inventory calls: the stored
inventory stays well-formed and the item's quantity is the clamped stepwise
fold of the operations. -/
theorem inv_fold (now : String) (jl : String → Option JVal) (cid c item : String)
    (ops : List QtyOp) :
    ∀ (st : SysState) (data : Campaign) (ch : Character),
      (∀ op ∈ ops, 1 ≤ op.qty) →
      _load_campaign st cid = some data →
      _find_character data c = some ch →
      wfInv (ch.inventory.getD []) →
      ∃ (data2 : Campaign) (ch2 : Character),
        _load_campaign (runMutates now jl st (ops.map (invCall cid c item))) cid =
          some data2 ∧
        _find_character data2 c = some ch2 ∧
        wfInv (ch2.inventory.getD []) ∧
        invQty (ch2.inventory.getD []) item =
          applyQtyOps (invQty (ch.inventory.getD []) item) ops := by
  induction ops with
  | nil =>
    intro st data ch _ hl hfind hwf
    exact ⟨data, ch, hl, hfind, hwf, rfl⟩
  | cons op rest ih =>
    intro st data ch hqs hl hfind hwf
    obtain ⟨ch2, _, hl2, hfind2, _, hwf2, hqty2, _⟩ :=
      inv_step now jl st cid c item data ch op hl hfind hwf (hqs op (by simp))
    obtain ⟨data3, ch3, hl3, hfind3, hwf3, hqty3⟩ :=
      ih (runMutate now jl st (invCall cid c item op)) (setCharacter data ch.id ch2) ch2
        (fun o ho => hqs o (by simp [ho])) hl2 hfind2 hwf2
    refine ⟨data3, ch3, hl3, hfind3, hwf3, ?_⟩
    rw [hqty3, hqty2]
    rfl

end RpgLedger

namespace RpgLedger

/-- C3 (amended): over any finite sequence of successful `inventory_add` /
`inventory_remove` calls naming one item id, each with quantity ≥ 1, the
stored inventory stays well-formed (unique ids, strictly positive
quantities — an item whose quantity would drop to 0 or below is removed
entirely, never stored with qty ≤ 0), a well-formed inventory holds the item
iff its quantity is strictly positive, and the final quantity is the
clamped stepwise fold of the operations — each `add q` maps the quantity
`x` to `x + q` and each `remove q` maps it to `max 0 (x - q)` — rather than
the single end-of-sequence clamp `max 0 (initial + adds - removes)`. -/
theorem claim3_inventory_clamped_fold (now : String) (jl : String → Option JVal)
    (st : SysState) (cid c item : String) (data : Campaign) (ch : Character)
    (hl : _load_campaign st cid = some data)
    (hfind : _find_character data c = some ch)
    (hwf : wfInv (ch.inventory.getD [])) :
    (∀ (inv : List Item) (i : String), wfInv inv →
      (invHas inv i = true ↔ 0 < invQty inv i)) ∧
    (∀ op : QtyOp, 1 ≤ op.qty →
      (∃ doc, runMutateRes now jl st (invCall cid c item op) = .ok doc) ∧
      wfInv (invOf (runMutate now jl st (invCall cid c item op)) cid c) ∧
      invQty (invOf (runMutate now jl st (invCall cid c item op)) cid c) item =
        op.apply (invQty (ch.inventory.getD []) item)) ∧
    (∀ ops : List QtyOp, (∀ op ∈ ops, 1 ≤ op.qty) →
      wfInv (invOf (runMutates now jl st (ops.map (invCall cid c item))) cid c) ∧
      invQty (invOf (runMutates now jl st (ops.map (invCall cid c item))) cid c) item =
        applyQtyOps (invQty (ch.inventory.getD []) item) ops ∧
      (invHas (invOf (runMutates now jl st (ops.map (invCall cid c item))) cid c) item
          = true ↔
        0 < applyQtyOps (invQty (ch.inventory.getD []) item) ops)) := by
  refine ⟨fun inv i hw => invHas_iff_pos inv i hw.1, ?_, ?_⟩
  · intro op hq
    obtain ⟨ch2, hok, hl2, hfind2, _, hwf2, hqty2, _⟩ :=
      inv_step now jl st cid c item data ch op hl hfind hwf hq
    rw [invOf_state _ _ _ _ _ hl2 hfind2]
    exact ⟨hok, hwf2, hqty2⟩
  · intro ops hqs
    obtain ⟨data2, ch2, hl2, hfind2, hwf2, hqty2⟩ :=
      inv_fold now jl cid c item ops st data ch hqs hl hfind hwf
    rw [invOf_state _ _ _ _ _ hl2 hfind2]
    refine ⟨hwf2, hqty2, ?_⟩
    rw [← hqty2]
    exact invHas_iff_pos _ _ hwf2.1

/-- C3 counterexample to the end-of-sequence formula: starting from an empty
inventory, a successful `inventory_remove` of 1 followed by a successful
`inventory_add` of 1 of the same item leaves quantity 1 (the remove clamps at
0 *when it runs*), whereas `max 0 (initial + adds - removes) = max 0 (0 + 1 - 1) = 0`,
and the item is present even though that formula says it should be absent. -/
theorem claim3_inventory_clamped_fold_counterexample :
    (∃ doc, runMutateRes "t" (fun _ => none) sampleState
      (invCall "c1" "h1" "torch" (.remove 1)) = .ok doc) ∧
    (∃ doc, runMutateRes "t" (fun _ => none)
      (runMutate "t" (fun _ => none) sampleState (invCall "c1" "h1" "torch" (.remove 1)))
      (invCall "c1" "h1" "torch" (.add 1)) = .ok doc) ∧
    invQty (invOf (runMutates "t" (fun _ => none) sampleState
      ([QtyOp.remove 1, QtyOp.add 1].map (invCall "c1" "h1" "torch"))) "c1" "h1")
      "torch" = 1 ∧
    invHas (invOf (runMutates "t" (fun _ => none) sampleState
      ([QtyOp.remove 1, QtyOp.add 1].map (invCall "c1" "h1" "torch"))) "c1" "h1")
      "torch" = true ∧
    invQty (invOf sampleState "c1" "h1") "torch" = 0 ∧
    max 0 (invQty (invOf sampleState "c1" "h1") "torch" + 1 - 1) = 0 := by
  refine ⟨⟨_, rfl⟩, ⟨_, rfl⟩, rfl, rfl, rfl, ?_⟩
  decide

end RpgLedger

namespace RpgLedger

/-- Witness: the amended C3 theorem instantiated on the sample campaign with
a concrete operation sequence, `add 2`, `remove 5`, `add 3` on "rope":
`applyQtyOps 0 [add 2, remove 5, add 3] = 3`. -/
theorem claim3_inventory_clamped_fold_witness :
    _load_campaign sampleState "c1" = some sampleDoc ∧
    _find_character sampleDoc "h1" = some hero ∧
    wfInv (hero.inventory.getD []) ∧
    invQty (invOf (runMutates "t" (fun _ => none) sampleState
      ([QtyOp.add 2, QtyOp.remove 5, QtyOp.add 3].map (invCall "c1" "h1" "rope")))
      "c1" "h1") "rope" =
      applyQtyOps (invQty (hero.inventory.getD []) "rope")
        [QtyOp.add 2, QtyOp.remove 5, QtyOp.add 3] :=
  ⟨rfl, rfl, ⟨fun it h => absurd h (List.not_mem_nil it), List.nodup_nil⟩,
    ((claim3_inventory_clamped_fold "t" (fun _ => none) sampleState "c1" "h1" "rope"
      sampleDoc hero rfl rfl
      ⟨fun it h => absurd h (List.not_mem_nil it), List.nodup_nil⟩).2.2
      [QtyOp.add 2, QtyOp.remove 5, QtyOp.add 3] (by decide)).2.1⟩

end RpgLedger
